import Mathlib

/-!
Shallow embedding of the AgentSwaps off-chain trading-floor core
(`src/index.js`): agent registry, escrow-backed intent posting,
price-tolerance matching, and dual-sided settlement.

Modelling conventions:
* JS numbers are embedded as `ℚ` (the spec describes fixed-point decimal
  semantics for amounts, prices, fees).
* JS `Map`s (agents, intents — keyed by unique name resp. unique fresh id,
  iterated in insertion order) are embedded as insertion-ordered lists.
* An agent's `balance` object is an association list from token symbol to
  amount.  A JS read `balance[t] || 0` is `orZero (lookupBal b t)`.  The one
  write without a `|| 0` guard, `balance[t] -= a`, turns an undefined entry
  into `NaN`; since every read in this code goes through `|| 0` (under which
  `NaN`, `undefined` and `0` coincide) and further `-=` keeps `NaN`, a `NaN`
  entry is observationally equal to an absent one, and we keep it absent.
* `uuidv4()` is embedded as a fresh-counter allocation (`World.nextId`);
  only freshness of the generated ids is used.
* ISO timestamp strings are embedded as integer milliseconds; each operation
  takes the current time `now` as an argument.
* The fire-and-forget collaborators invoked after settlement (governance
  rewards, on-chain reward distribution, Solana proof recording) and the
  derived leaderboard view are external to the core per spec §5/§6 and are
  not part of the state; `metadata` payloads are opaque and dropped.
-/

namespace AgentSwaps

/-! ### Balances and prices -/

/-- Association list from token symbol to amount (the JS `balance` object). -/
abbrev Balances := List (String × ℚ)

def lookupBal : Balances → String → Option ℚ
  | [], _ => none
  | p :: rest, t => if p.1 == t then some p.2 else lookupBal rest t

/-- JS read `x || 0`: `undefined`, `NaN` and `0` all read as `0`. -/
def orZero (o : Option ℚ) : ℚ := o.getD 0

/-- JS property write `b[t] = v`: replace in place, or append a new key. -/
def setBal : Balances → String → ℚ → Balances
  | [], t, v => [(t, v)]
  | p :: rest, t, v => if p.1 == t then (p.1, v) :: rest else p :: setBal rest t v

/-- JS `b[t] = (b[t] || 0) + a`. -/
def addBal (b : Balances) (t : String) (a : ℚ) : Balances :=
  setBal b t (orZero (lookupBal b t) + a)

/-- JS `b[t] -= a`: defined entries are decremented; an absent (or `NaN`)
entry stays absent (JS would store `NaN`, observationally equal here). -/
def subBal (b : Balances) (t : String) (a : ℚ) : Balances :=
  b.map (fun p => if p.1 == t then (p.1, p.2 - a) else p)

/-- The USD reference price table (`world.economy.tokenPrices`). -/
abbrev Prices := List (String × ℚ)

def lookupPrice : Prices → String → Option ℚ
  | [], _ => none
  | p :: rest, t => if p.1 == t then some p.2 else lookupPrice rest t

/-- JS read `world.economy.tokenPrices[t] || 1`. -/
def priceOr1 (ps : Prices) (t : String) : ℚ :=
  match lookupPrice ps t with
  | none => 1
  | some v => if v = 0 then 1 else v

/-! ### Data model -/

inductive IntentStatus where
  | active
  | filled
  deriving DecidableEq, Repr

/-- One side of an intent: `{ token, amount }`. -/
structure Leg where
  token : String
  amount : ℚ
  deriving DecidableEq, Repr

/-- Stored `want` side of an intent (defaults already applied). -/
structure WantSpec where
  token : String
  minAmount : ℚ
  maxSlippage : ℚ
  deriving DecidableEq, Repr

/-- The `want` argument as supplied by the caller; `none` is a JS
`undefined` field. -/
structure WantArg where
  token : String
  minAmount : Option ℚ
  maxSlippage : Option ℚ
  deriving DecidableEq, Repr

/-- The `options` argument of `postIntent` (`metadata` dropped as opaque). -/
structure PostOptions where
  expiresAt : Option Int
  deriving DecidableEq, Repr

structure Intent where
  id : Nat
  agent : String
  give : Leg
  want : WantSpec
  status : IntentStatus
  createdAt : Int
  expiresAt : Int
  deriving DecidableEq, Repr

structure Agent where
  id : Nat
  name : String
  walletAddress : String
  balance : Balances
  reputation : ℚ
  swapsCompleted : Nat
  swapsFailed : Nat
  totalVolume : ℚ
  enteredAt : Int
  lastActive : Int
  status : String
  deriving DecidableEq, Repr

structure SwapRecord where
  id : Nat
  intentA : Nat
  intentB : Nat
  agentA : String
  agentB : String
  giveA : Leg
  giveB : Leg
  feeA : ℚ
  feeB : ℚ
  volumeUSD : ℚ
  executedAt : Int
  deriving DecidableEq, Repr

/-- A world event (payload `data` reduced to its type tag; `uuid` dropped). -/
structure WorldEvent where
  type : String
  epoch : Nat
  timestamp : Int
  deriving DecidableEq, Repr

structure Economy where
  totalVolume : ℚ
  totalSwaps : Nat
  totalFees : ℚ
  feeRate : ℚ
  entryFee : ℚ
  supportedTokens : List String
  tokenPrices : Prices
  deriving DecidableEq, Repr

structure World where
  agents : List Agent
  intents : List Intent
  swaps : List SwapRecord
  economy : Economy
  events : List WorldEvent
  epoch : Nat
  nextId : Nat
  deriving DecidableEq, Repr

def initWorld : World :=
  { agents := []
    intents := []
    swaps := []
    economy :=
      { totalVolume := 0
        totalSwaps := 0
        totalFees := 0
        feeRate := 3 / 1000
        entryFee := 1
        supportedTokens := ["USDC", "ETH", "SOL", "MON", "BTC"]
        tokenPrices :=
          [("USDC", 1), ("ETH", 2800), ("SOL", 120), ("MON", 1 / 2), ("BTC", 98000)] }
    events := []
    epoch := 0
    nextId := 0 }

/-! ### State helpers -/

def getAgent (w : World) (n : String) : Option Agent :=
  w.agents.find? (fun a => a.name == n)

/-- In-place mutation of the (unique) agent object keyed by `n`. -/
def updateAgent (w : World) (n : String) (f : Agent → Agent) : World :=
  { w with agents := w.agents.map (fun a => if a.name == n then f a else a) }

/-- `addEvent`: append to the event log, keeping the last 1000 entries. -/
def addEvent (w : World) (ty : String) (now : Int) : World :=
  let es := w.events ++ [{ type := ty, epoch := w.epoch, timestamp := now }]
  { w with events := if es.length > 1000 then es.drop (es.length - 1000) else es }

/-- In-place mutation of the intent object(s) with the given id. -/
def setIntentStatus (w : World) (id : Nat) (st : IntentStatus) : World :=
  { w with intents := w.intents.map (fun i => if i.id == id then { i with status := st } else i) }

/-- `world.agents.set(name, agent)` for a fresh name, plus the id allocation. -/
def storeAgent (w : World) (a : Agent) : World :=
  { w with agents := w.agents ++ [a], nextId := w.nextId + 1 }

/-- `world.intents.set(intent.id, intent)` plus the id allocation. -/
def storeIntent (w : World) (i : Intent) : World :=
  { w with intents := w.intents ++ [i], nextId := w.nextId + 1 }

/-- Lines 255-259: bump the world economy counters. -/
def bumpEconomy (w : World) (dVolume : ℚ) (dFees : ℚ) : World :=
  { w with economy :=
    { w.economy with
        totalVolume := w.economy.totalVolume + dVolume,
        totalSwaps := w.economy.totalSwaps + 1,
        totalFees := w.economy.totalFees + dFees } }

/-- Lines 280-281: append the swap record (with its id allocation) and
advance the epoch. -/
def recordSwap (w : World) (s : SwapRecord) : World :=
  { w with swaps := w.swaps ++ [s], nextId := w.nextId + 1, epoch := w.epoch + 1 }

/-- `agent.balance[token] = (agent.balance[token] || 0) + amount` together
with `agent.lastActive = now` (deposit, lines 112-113). -/
def depositBump (token : String) (amount : ℚ) (now : Int) (a : Agent) : Agent :=
  { a with balance := addBal a.balance token amount, lastActive := now }

/-- `agent.balance[give.token] -= give.amount` together with
`agent.lastActive = now` (escrow lock, lines 153-156). -/
def escrowDebit (token : String) (amount : ℚ) (now : Int) (a : Agent) : Agent :=
  { a with balance := subBal a.balance token amount, lastActive := now }

/-- `agent.balance[token] = (agent.balance[token] || 0) + amount`
(settlement credit, lines 233/236). -/
def creditBal (token : String) (amount : ℚ) (a : Agent) : Agent :=
  { a with balance := addBal a.balance token amount }

/-- Lines 244-252: swap counter, cumulative volume, reputation, last-active. -/
def bumpStats (volume : ℚ) (now : Int) (a : Agent) : Agent :=
  { a with swapsCompleted := a.swapsCompleted + 1,
           totalVolume := a.totalVolume + volume,
           reputation := a.reputation + 5,
           lastActive := now }

/-! ### Operations -/

inductive RegResult where
  | err (error : String)
  | ok (agent : Agent)
  deriving DecidableEq, Repr

/-- Fresh agent record created by `registerAgent`. -/
def initialBalance : Balances :=
  [("USDC", 0), ("ETH", 0), ("SOL", 0), ("MON", 0), ("BTC", 0)]

def registerAgent (w : World) (name walletAddress : String) (now : Int) :
    RegResult × World :=
  if (getAgent w name).isSome then (.err "Agent already registered", w)
  else
    let agent : Agent :=
      { id := w.nextId
        name := name
        walletAddress := walletAddress
        balance := initialBalance
        reputation := 100
        swapsCompleted := 0
        swapsFailed := 0
        totalVolume := 0
        enteredAt := now
        lastActive := now
        status := "active" }
    (.ok agent, addEvent (storeAgent w agent) "agent_entered" now)

inductive DepResult where
  | err (error : String)
  | ok (balance : Balances)
  deriving DecidableEq, Repr

def depositTokens (w : World) (agentName token : String) (amount : ℚ) (now : Int) :
    DepResult × World :=
  match getAgent w agentName with
  | none => (.err "Agent not found", w)
  | some agent =>
    if !(w.economy.supportedTokens.contains token) then
      (.err ("Token " ++ token ++ " not supported"), w)
    else if amount ≤ 0 then
      (.err "Amount must be positive", w)
    else
      let w1 := updateAgent w agentName (depositBump token amount now)
      (.ok (addBal agent.balance token amount), addEvent w1 "deposit" now)

/-- JS `x || d` on an optional numeric field: `undefined`, `NaN` and `0`
fall back to the default `d`. -/
def orFalsy (o : Option ℚ) (d : ℚ) : ℚ :=
  match o with
  | none => d
  | some v => if v = 0 then d else v

/-- The intent record built by `postIntent` (lines 141-150). -/
def mkIntent (w : World) (agentName : String) (give : Leg) (want : WantArg)
    (opts : PostOptions) (now : Int) : Intent :=
  { id := w.nextId
    agent := agentName
    give := { token := give.token, amount := give.amount }
    want :=
      { token := want.token
        minAmount := orFalsy want.minAmount 0
        maxSlippage := orFalsy want.maxSlippage (1 / 100) }
    status := .active
    createdAt := now
    expiresAt := opts.expiresAt.getD (now + 60 * 60 * 1000) }

/-- Escrow-lock and store the new intent (lines 152-164): debit the give
amount, store the intent, touch `lastActive`, emit the event. -/
def escrowWorld (w : World) (agentName : String) (give : Leg) (intent : Intent)
    (now : Int) : World :=
  let w1 := updateAgent w agentName (escrowDebit give.token give.amount now)
  addEvent (storeIntent w1 intent) "intent_posted" now

/-- Candidate set of `findMatch` (lines 180-187). -/
def matchCandidates (w : World) (newIntent : Intent) : List Intent :=
  w.intents.filter (fun i =>
    i.status == IntentStatus.active &&
    i.id != newIntent.id &&
    i.agent != newIntent.agent &&
    i.give.token == newIntent.want.token &&
    i.want.token == newIntent.give.token)

/-- Slippage acceptance test of `findMatch` (lines 193-202). -/
def slippageOK (w : World) (newIntent candidate : Intent) : Bool :=
  let givePrice := priceOr1 w.economy.tokenPrices newIntent.give.token
  let wantPrice := priceOr1 w.economy.tokenPrices newIntent.want.token
  let marketRate := givePrice / wantPrice
  let offerRate := newIntent.give.amount /
    (if candidate.give.amount = 0 then 1 else candidate.give.amount)
  decide (|offerRate - marketRate| / marketRate ≤
    max newIntent.want.maxSlippage candidate.want.maxSlippage)

def findMatch (w : World) (newIntent : Intent) : Option Intent :=
  let activeIntents := matchCandidates w newIntent
  if activeIntents.isEmpty then none
  else
    match activeIntents.find? (slippageOK w newIntent) with
    | some candidate => some candidate
    | none => activeIntents.head?

inductive PostResult where
  | err (error : String)
  | posted (intent : Intent)
  | settled (swap : SwapRecord) (balanceA balanceB : Balances)
  deriving DecidableEq, Repr

def executeSwap (w : World) (intentA intentB : Intent) (now : Int) :
    PostResult × World :=
  match getAgent w intentA.agent, getAgent w intentB.agent with
  | some _, some _ =>
    let giveAmountA := intentA.give.amount
    let giveAmountB := intentB.give.amount
    let feeA := giveAmountA * w.economy.feeRate
    let feeB := giveAmountB * w.economy.feeRate
    let w1 := updateAgent w intentA.agent
      (creditBal intentB.give.token (giveAmountB - feeB))
    let w2 := updateAgent w1 intentB.agent
      (creditBal intentA.give.token (giveAmountA - feeA))
    let volumeA := giveAmountA * priceOr1 w.economy.tokenPrices intentA.give.token
    let volumeB := giveAmountB * priceOr1 w.economy.tokenPrices intentB.give.token
    let totalVol := volumeA + volumeB
    let w3 := updateAgent w2 intentA.agent (bumpStats volumeA now)
    let w4 := updateAgent w3 intentB.agent (bumpStats volumeB now)
    let w5 := bumpEconomy w4 totalVol
      (feeA * priceOr1 w.economy.tokenPrices intentA.give.token +
       feeB * priceOr1 w.economy.tokenPrices intentB.give.token)
    let w6 := setIntentStatus (setIntentStatus w5 intentA.id .filled) intentB.id .filled
    let swap : SwapRecord :=
      { id := w6.nextId
        intentA := intentA.id
        intentB := intentB.id
        agentA := intentA.agent
        agentB := intentB.agent
        giveA := intentA.give
        giveB := intentB.give
        feeA := feeA
        feeB := feeB
        volumeUSD := totalVol
        executedAt := now }
    let w7 := recordSwap w6 swap
    let w8 := addEvent w7 "swap_executed" now
    (.settled swap
      (((getAgent w8 intentA.agent).map (fun a => a.balance)).getD [])
      (((getAgent w8 intentB.agent).map (fun a => a.balance)).getD []), w8)
  | _, _ => (.err "Agent not found during swap", w)

def postIntent (w : World) (agentName : String) (give : Leg) (want : WantArg)
    (opts : PostOptions) (now : Int) : PostResult × World :=
  match getAgent w agentName with
  | none => (.err "Agent not registered", w)
  | some agent =>
    if orZero (lookupBal agent.balance give.token) < give.amount then
      (.err ("Insufficient " ++ give.token ++ " balance"), w)
    else
      let intent := mkIntent w agentName give want opts now
      let w2 := escrowWorld w agentName give intent now
      match findMatch w2 intent with
      | some m => executeSwap w2 intent m now
      | none => (.posted intent, w2)

/-! ### Observed quantities -/

/-- An agent's free balance in a token, as observed through `|| 0` reads. -/
def freeBal (w : World) (n t : String) : ℚ :=
  match getAgent w n with
  | some a => orZero (lookupBal a.balance t)
  | none => 0

/-- Sum of the give amounts escrowed by agent `n`'s active intents in `t`. -/
def agentEscrow (w : World) (n t : String) : ℚ :=
  ((w.intents.filter (fun i =>
    i.status == IntentStatus.active && i.agent == n && i.give.token == t)).map
    (fun i => i.give.amount)).sum

/-- Sum over all agents of the free balance in token `t`. -/
def totalFree (w : World) (t : String) : ℚ :=
  (w.agents.map (fun a => orZero (lookupBal a.balance t))).sum

/-- Sum of the give amounts escrowed by all active intents in token `t`. -/
def totalEscrow (w : World) (t : String) : ℚ :=
  ((w.intents.filter (fun i =>
    i.status == IntentStatus.active && i.give.token == t)).map
    (fun i => i.give.amount)).sum

/-- Status of the stored intent with the given id. -/
def statusOf (w : World) (id : Nat) : Option IntentStatus :=
  (w.intents.find? (fun i => i.id == id)).map (fun i => i.status)

/-! ### Operation traces and the deposit ghost -/

/-- The core operations reachable from the outside. -/
inductive Op where
  | register (name walletAddress : String) (now : Int)
  | deposit (agentName token : String) (amount : ℚ) (now : Int)
  | post (agentName : String) (give : Leg) (want : WantArg) (opts : PostOptions)
      (now : Int)
  deriving DecidableEq

/-- World plus ghost accounting of successful deposits: per agent and token,
and per token across all agents. -/
structure GWorld where
  world : World
  depBy : String → String → ℚ
  depTot : String → ℚ

def stepG (gw : GWorld) (op : Op) : GWorld :=
  match op with
  | .register n wa now => { gw with world := (registerAgent gw.world n wa now).2 }
  | .deposit n t a now =>
    match depositTokens gw.world n t a now with
    | (.ok _, w') =>
      { world := w'
        depBy := fun n' t' =>
          if n' = n ∧ t' = t then gw.depBy n' t' + a else gw.depBy n' t'
        depTot := fun t' => if t' = t then gw.depTot t' + a else gw.depTot t' }
    | (.err _, w') => { gw with world := w' }
  | .post n g wt o now => { gw with world := (postIntent gw.world n g wt o now).2 }

def initG : GWorld := { world := initWorld, depBy := fun _ _ => 0, depTot := fun _ => 0 }

def runG (gw : GWorld) (ops : List Op) : GWorld := ops.foldl stepG gw

/-- Every `post` operation in an operation gives a non-negative amount. -/
def nonNegPost : Op → Bool
  | .post _ g _ _ _ => decide (0 ≤ g.amount)
  | _ => true

/-! ### Concrete demonstration traces -/

/-- Scenario 3 of the spec: A gives 2800 USDC for ETH, B gives 1 ETH for
USDC, both with slippage tolerance 0.02. -/
def sc3Ops : List Op :=
  [.register "A" "0xA" 0,
   .register "B" "0xB" 0,
   .deposit "A" "USDC" 2800 0,
   .deposit "B" "ETH" 1 0,
   .post "A" ⟨"USDC", 2800⟩ ⟨"ETH", none, some (1 / 50)⟩ ⟨none⟩ 0,
   .post "B" ⟨"ETH", 1⟩ ⟨"USDC", none, some (1 / 50)⟩ ⟨none⟩ 0]

/-- The world just before B's intent is posted in scenario 3. -/
def sc3Pre : World := (runG initG (sc3Ops.take 5)).world

/-- The result of posting B's intent in scenario 3. -/
def sc3Res : PostResult × World :=
  postIntent sc3Pre "B" ⟨"ETH", 1⟩ ⟨"USDC", none, some (1 / 50)⟩ ⟨none⟩ 0

/-- The swap record produced in scenario 3. -/
def sc3Swap : SwapRecord :=
  match sc3Res.1 with
  | .settled s _ _ => s
  | _ => { id := 0, intentA := 0, intentB := 0, agentA := "", agentB := "",
           giveA := ⟨"", 0⟩, giveB := ⟨"", 0⟩, feeA := 0, feeB := 0,
           volumeUSD := 0, executedAt := 0 }

/-- The balance snapshots returned in scenario 3. -/
def sc3BalA : Balances :=
  match sc3Res.1 with
  | .settled _ bA _ => bA
  | _ => []

def sc3BalB : Balances :=
  match sc3Res.1 with
  | .settled _ _ bB => bB
  | _ => []

/-- A trace exploiting the missing positivity check on posted amounts: A
posts an intent giving -10000 USDC, which then settles against B's 1 ETH. -/
def negOps : List Op :=
  [.register "A" "0xA" 0,
   .register "B" "0xB" 0,
   .post "A" ⟨"USDC", -10000⟩ ⟨"ETH", none, none⟩ ⟨none⟩ 0,
   .deposit "B" "ETH" 1 0,
   .post "B" ⟨"ETH", 1⟩ ⟨"USDC", none, none⟩ ⟨none⟩ 0]

/-- The summed give amounts of the active intents in token `t` of a list. -/
def escrowSum (l : List Intent) (t : String) : ℚ :=
  ((l.filter (fun i =>
    i.status == IntentStatus.active && i.give.token == t)).map
    (fun i => i.give.amount)).sum

/-- Contribution of a single intent to the escrow sum. -/
def escrowContrib (i : Intent) (t : String) : ℚ :=
  if i.status = IntentStatus.active ∧ i.give.token = t then i.give.amount else 0

/-- Inductive invariant carried along every operation trace: agent names are
unique, every stored intent gives a non-negative amount, the fee rate and
reference prices are non-negative, and per symbol the economy-wide free
balances plus active escrow stay below the ghost total of successful
deposits. -/
structure Inv (gw : GWorld) : Prop where
  namesNodup : (gw.world.agents.map (fun a => a.name)).Nodup
  amountsNonneg : ∀ i ∈ gw.world.intents, 0 ≤ i.give.amount
  feeRateNonneg : 0 ≤ gw.world.economy.feeRate
  pricesNonneg : ∀ p ∈ gw.world.economy.tokenPrices, 0 ≤ p.2
  conserve : ∀ t, totalFree gw.world t + totalEscrow gw.world t ≤ gw.depTot t

/-- Fallback record used only as an `Option.getD` default. -/
def fallbackAgent : Agent :=
  { id := 0, name := "", walletAddress := "", balance := [], reputation := 0,
    swapsCompleted := 0, swapsFailed := 0, totalVolume := 0, enteredAt := 0,
    lastActive := 0, status := "" }

/-- The stored record of agent A just before B's scenario-3 intent. -/
def sc3AgentA : Agent := (getAgent sc3Pre "A").getD fallbackAgent

/-- The stored record of agent B just before B's scenario-3 intent. -/
def sc3AgentB : Agent := (getAgent sc3Pre "B").getD fallbackAgent

/-- Scenario 6 of the spec: two reciprocal intents whose implied rate
(100 USDC per ETH) is grossly incompatible with the reference market rate
(2800 USDC per ETH), far outside both 0.02 tolerances. -/
def s6Ops : List Op :=
  [.register "A" "0xA" 0,
   .register "B" "0xB" 0,
   .deposit "A" "USDC" 100 0,
   .deposit "B" "ETH" 1 0,
   .post "A" ⟨"USDC", 100⟩ ⟨"ETH", none, some (1 / 50)⟩ ⟨none⟩ 0,
   .post "B" ⟨"ETH", 1⟩ ⟨"USDC", none, some (1 / 50)⟩ ⟨none⟩ 0]

/-- The world just before B's intent is posted in scenario 6. -/
def s6Pre : World := (runG initG (s6Ops.take 5)).world

/-- B's scenario-6 intent as stored. -/
def s6Intent : Intent :=
  mkIntent s6Pre "B" ⟨"ETH", 1⟩ ⟨"USDC", none, some (1 / 50)⟩ ⟨none⟩ 0

/-- The world with B's scenario-6 intent escrowed and stored. -/
def s6W2 : World := escrowWorld s6Pre "B" ⟨"ETH", 1⟩ s6Intent 0

/-- The result of posting B's scenario-6 intent. -/
def s6Res : PostResult × World :=
  postIntent s6Pre "B" ⟨"ETH", 1⟩ ⟨"USDC", none, some (1 / 50)⟩ ⟨none⟩ 0

/-- Tests whether a post result reports `matched: true`. -/
def isSettled : PostResult → Bool
  | .settled _ _ _ => true
  | _ => false

/-- A world with only agent A registered (no deposits, no intents). -/
def c9Pre : World := (registerAgent initWorld "A" "0xA" 0).2

/-- Agent A's stored record in `c9Pre`. -/
def c9Agent : Agent := (getAgent c9Pre "A").getD fallbackAgent

/-- Scenario 2 of the spec: agent A deposits 1000 USDC; A then posts an
intent giving 600 USDC. -/
def c7Pre : World :=
  (depositTokens (registerAgent initWorld "A" "0xA" 0).2 "A" "USDC" 1000 0).2

/-- Agent A's stored record in `c7Pre`. -/
def c7Agent : Agent := (getAgent c7Pre "A").getD fallbackAgent

def c5IA : Intent :=
  { id := 100, agent := "A", give := ⟨"USDC", 10⟩,
    want := ⟨"ETH", 0, 1 / 100⟩, status := .active, createdAt := 0,
    expiresAt := 0 }

def c5IB : Intent :=
  { id := 101, agent := "B", give := ⟨"ETH", 1⟩,
    want := ⟨"USDC", 0, 1 / 100⟩, status := .active, createdAt := 0,
    expiresAt := 0 }

/-! ### Helper lemmas: balance maps -/

@[simp] lemma orZero_none : orZero none = 0 := rfl

@[simp] lemma orZero_some (v : ℚ) : orZero (some v) = v := rfl

lemma lookupBal_setBal (b : Balances) (t : String) (v : ℚ) (s : String) :
    lookupBal (setBal b t v) s = if s = t then some v else lookupBal b s := by
  induction b with
  | nil =>
    by_cases h : s = t
    · subst h; simp [setBal, lookupBal]
    · have ht : ¬ t = s := fun hc => h hc.symm
      simp [setBal, lookupBal, h, ht]
  | cons p rest ih =>
    by_cases hp : p.1 = t
    · by_cases h : s = t
      · subst h; simp [setBal, lookupBal, hp]
      · have ht : ¬ t = s := fun hc => h hc.symm
        simp [setBal, lookupBal, hp, ht, h]
    · by_cases hs : p.1 = s
      · have hst : ¬ s = t := fun hc => hp (by rw [hs, hc])
        simp [setBal, lookupBal, hp, hs, hst]
      · simp [setBal, lookupBal, hp, hs, ih]

lemma lookupBal_addBal (b : Balances) (t : String) (a : ℚ) (s : String) :
    lookupBal (addBal b t a) s =
      if s = t then some (orZero (lookupBal b t) + a) else lookupBal b s := by
  simp [addBal, lookupBal_setBal]

lemma lookupBal_subBal (b : Balances) (t : String) (a : ℚ) (s : String) :
    lookupBal (subBal b t a) s =
      if s = t then (lookupBal b s).map (fun v => v - a) else lookupBal b s := by
  induction b with
  | nil => by_cases h : s = t <;> simp [subBal, lookupBal, h]
  | cons p rest ih =>
    by_cases hp : p.1 = t
    · by_cases h : s = t
      · subst h; simp [subBal, lookupBal, hp]
      · have ht : ¬ t = s := fun hc => h hc.symm
        simpa [subBal, lookupBal, hp, ht, h] using ih
    · by_cases hs : p.1 = s
      · have hst : ¬ s = t := fun hc => hp (by rw [hs, hc])
        simp [subBal, lookupBal, hp, hs, hst]
      · simpa [subBal, lookupBal, hp, hs] using ih

lemma orZero_lookupBal_addBal (b : Balances) (t : String) (a : ℚ) (s : String) :
    orZero (lookupBal (addBal b t a) s) =
      orZero (lookupBal b s) + if s = t then a else 0 := by
  rw [lookupBal_addBal]
  by_cases h : s = t
  · subst h; simp
  · simp [h]

lemma orZero_of_all_zero : ∀ {b : Balances}, (∀ p ∈ b, p.2 = 0) → ∀ t,
    orZero (lookupBal b t) = 0
  | [], _, t => by simp [lookupBal]
  | p :: rest, hb, t => by
    by_cases h : p.1 = t
    · simp [lookupBal, h, hb p (List.mem_cons_self p rest)]
    · simpa [lookupBal, h] using
        orZero_of_all_zero (fun q hq => hb q (List.mem_cons_of_mem p hq)) t

/-! ### Helper lemmas: world component projections -/

@[simp] lemma addEvent_agents (w : World) (ty : String) (now : Int) :
    (addEvent w ty now).agents = w.agents := rfl

@[simp] lemma addEvent_intents (w : World) (ty : String) (now : Int) :
    (addEvent w ty now).intents = w.intents := rfl

@[simp] lemma addEvent_economy (w : World) (ty : String) (now : Int) :
    (addEvent w ty now).economy = w.economy := rfl

@[simp] lemma addEvent_nextId (w : World) (ty : String) (now : Int) :
    (addEvent w ty now).nextId = w.nextId := rfl

@[simp] lemma addEvent_swaps (w : World) (ty : String) (now : Int) :
    (addEvent w ty now).swaps = w.swaps := rfl

@[simp] lemma addEvent_epoch (w : World) (ty : String) (now : Int) :
    (addEvent w ty now).epoch = w.epoch := rfl

@[simp] lemma updateAgent_intents (w : World) (n : String) (f : Agent → Agent) :
    (updateAgent w n f).intents = w.intents := rfl

@[simp] lemma updateAgent_economy (w : World) (n : String) (f : Agent → Agent) :
    (updateAgent w n f).economy = w.economy := rfl

@[simp] lemma updateAgent_nextId (w : World) (n : String) (f : Agent → Agent) :
    (updateAgent w n f).nextId = w.nextId := rfl

@[simp] lemma updateAgent_swaps (w : World) (n : String) (f : Agent → Agent) :
    (updateAgent w n f).swaps = w.swaps := rfl

@[simp] lemma updateAgent_epoch (w : World) (n : String) (f : Agent → Agent) :
    (updateAgent w n f).epoch = w.epoch := rfl

@[simp] lemma setIntentStatus_agents (w : World) (id : Nat) (st : IntentStatus) :
    (setIntentStatus w id st).agents = w.agents := rfl

@[simp] lemma setIntentStatus_economy (w : World) (id : Nat) (st : IntentStatus) :
    (setIntentStatus w id st).economy = w.economy := rfl

@[simp] lemma setIntentStatus_nextId (w : World) (id : Nat) (st : IntentStatus) :
    (setIntentStatus w id st).nextId = w.nextId := rfl

/-! ### Helper lemmas: agent lookup and update -/

lemma find?_name_map {l : List Agent} {g : Agent → Agent}
    (hg : ∀ a, (g a).name = a.name) (n : String) :
    (l.map g).find? (fun a => a.name == n) = (l.find? (fun a => a.name == n)).map g := by
  induction l with
  | nil => rfl
  | cons a l ih =>
    by_cases h : a.name = n
    · rw [List.map_cons, List.find?_cons_of_pos _ (by simp [hg, h]),
        List.find?_cons_of_pos _ (by simp [h])]
      rfl
    · rw [List.map_cons, List.find?_cons_of_neg _ (by simp [hg, h]),
        List.find?_cons_of_neg _ (by simp [h]), ih]

lemma getAgent_updateAgent (w : World) (n : String) (f : Agent → Agent)
    (hf : ∀ a, (f a).name = a.name) (m : String) :
    getAgent (updateAgent w n f) m =
      if m = n then (getAgent w m).map f else getAgent w m := by
  have hg : ∀ a, ((fun a => if a.name == n then f a else a) a).name = a.name := by
    intro a; by_cases h : a.name = n <;> simp [h, hf]
  show ((w.agents.map fun a => if a.name == n then f a else a).find?
      (fun a => a.name == m)) = _
  rw [find?_name_map hg]
  cases hfind : w.agents.find? (fun a => a.name == m) with
  | none => simp [getAgent, hfind]
  | some a₀ =>
    have ha : a₀.name = m := by simpa using List.find?_some hfind
    by_cases h : m = n
    · subst h; simp [getAgent, hfind, Option.map, ha]
    · simp [getAgent, hfind, Option.map, ha, h]

@[simp] lemma depositBump_name (token : String) (amount : ℚ) (now : Int)
    (a : Agent) : (depositBump token amount now a).name = a.name := rfl

@[simp] lemma escrowDebit_name (token : String) (amount : ℚ) (now : Int)
    (a : Agent) : (escrowDebit token amount now a).name = a.name := rfl

@[simp] lemma creditBal_name (token : String) (amount : ℚ) (a : Agent) :
    (creditBal token amount a).name = a.name := rfl

@[simp] lemma bumpStats_name (volume : ℚ) (now : Int) (a : Agent) :
    (bumpStats volume now a).name = a.name := rfl

lemma getAgent_update_depositBump (w : World) (n : String) (token : String)
    (amount : ℚ) (now : Int) (m : String) :
    getAgent (updateAgent w n (depositBump token amount now)) m =
      if m = n then (getAgent w m).map (depositBump token amount now)
      else getAgent w m :=
  getAgent_updateAgent w n (depositBump token amount now) (fun _ => rfl) m

lemma getAgent_update_escrowDebit (w : World) (n : String) (token : String)
    (amount : ℚ) (now : Int) (m : String) :
    getAgent (updateAgent w n (escrowDebit token amount now)) m =
      if m = n then (getAgent w m).map (escrowDebit token amount now)
      else getAgent w m :=
  getAgent_updateAgent w n (escrowDebit token amount now) (fun _ => rfl) m

lemma getAgent_update_creditBal (w : World) (n : String) (token : String)
    (amount : ℚ) (m : String) :
    getAgent (updateAgent w n (creditBal token amount)) m =
      if m = n then (getAgent w m).map (creditBal token amount)
      else getAgent w m :=
  getAgent_updateAgent w n (creditBal token amount) (fun _ => rfl) m

lemma getAgent_update_bumpStats (w : World) (n : String) (volume : ℚ)
    (now : Int) (m : String) :
    getAgent (updateAgent w n (bumpStats volume now)) m =
      if m = n then (getAgent w m).map (bumpStats volume now)
      else getAgent w m :=
  getAgent_updateAgent w n (bumpStats volume now) (fun _ => rfl) m

lemma map_update_eq_self {l : List Agent} {n : String} {f : Agent → Agent}
    (h : ∀ a ∈ l, ¬ a.name = n) :
    (l.map fun a => if a.name == n then f a else a) = l := by
  induction l with
  | nil => rfl
  | cons a l ih =>
    have h1 : ¬ (a.name == n) = true := by
      simpa using h a (List.mem_cons_self a l)
    rw [List.map_cons, if_neg h1, ih (fun b hb => h b (List.mem_cons_of_mem a hb))]

lemma sum_map_update {l : List Agent} {n : String} {a₀ : Agent}
    (hnd : (l.map (fun a => a.name)).Nodup)
    (hfind : l.find? (fun a => a.name == n) = some a₀)
    (f : Agent → Agent) (φ : Agent → ℚ) :
    ((l.map fun a => if a.name == n then f a else a).map φ).sum =
      (l.map φ).sum + (φ (f a₀) - φ a₀) := by
  induction l with
  | nil => simp [List.find?] at hfind
  | cons a l ih =>
    rw [List.map_cons] at hnd
    have hnd' := List.nodup_cons.mp hnd
    by_cases h : a.name = n
    · rw [List.find?_cons_of_pos _ (by simp [h])] at hfind
      have ha : a₀ = a := (Option.some_inj.mp hfind).symm
      subst ha
      have hrest : ∀ b ∈ l, ¬ b.name = n := by
        intro b hb hc
        exact hnd'.1 (h ▸ hc ▸ List.mem_map_of_mem (fun a => a.name) hb)
      simp only [List.map_cons, h, beq_self_eq_true, if_true, List.sum_cons,
        map_update_eq_self hrest]
      ring
    · rw [List.find?_cons_of_neg _ (by simp [h])] at hfind
      have ih' := ih hnd'.2 hfind
      simp only [beq_iff_eq] at ih'
      simp only [List.map_cons, beq_iff_eq, h, if_false, List.sum_cons, ih']
      ring

lemma totalFree_updateAgent {w : World} {n : String} {a₀ : Agent}
    (hnd : (w.agents.map (fun a => a.name)).Nodup)
    (hfind : getAgent w n = some a₀) (f : Agent → Agent) (t : String) :
    totalFree (updateAgent w n f) t =
      totalFree w t +
        (orZero (lookupBal (f a₀).balance t) - orZero (lookupBal a₀.balance t)) :=
  sum_map_update hnd hfind f _

lemma totalFree_updateAgent_of_balance_eq {w : World} {n : String}
    {f : Agent → Agent} (hf : ∀ a, (f a).balance = a.balance) (t : String) :
    totalFree (updateAgent w n f) t = totalFree w t := by
  show ((w.agents.map _).map _).sum = _
  rw [List.map_map]
  refine congrArg List.sum (List.map_congr_left ?_)
  intro a _
  by_cases h : a.name = n <;> simp [Function.comp, h, hf]

lemma names_updateAgent (w : World) (n : String) (f : Agent → Agent)
    (hf : ∀ a, (f a).name = a.name) :
    (updateAgent w n f).agents.map (fun a => a.name) =
      w.agents.map (fun a => a.name) := by
  show (w.agents.map _).map _ = _
  rw [List.map_map]
  refine List.map_congr_left ?_
  intro a _
  by_cases h : a.name = n <;> simp [Function.comp, h, hf]

/-! ### Helper lemmas: intents, escrow sums, matching -/

lemma find?_id_map {l : List Intent} {g : Intent → Intent}
    (hg : ∀ i, (g i).id = i.id) (m : Nat) :
    (l.map g).find? (fun i => i.id == m) = (l.find? (fun i => i.id == m)).map g := by
  induction l with
  | nil => rfl
  | cons i l ih =>
    by_cases h : i.id = m
    · rw [List.map_cons, List.find?_cons_of_pos _ (by simp [hg, h]),
        List.find?_cons_of_pos _ (by simp [h])]
      rfl
    · rw [List.map_cons, List.find?_cons_of_neg _ (by simp [hg, h]),
        List.find?_cons_of_neg _ (by simp [h]), ih]

lemma statusOf_setIntentStatus (w : World) (id id' : Nat) (st : IntentStatus) :
    statusOf (setIntentStatus w id st) id' =
      if id' = id then (statusOf w id').map (fun _ => st) else statusOf w id' := by
  have hg : ∀ i : Intent,
      ((fun i : Intent => if i.id == id then { i with status := st } else i) i).id
      = i.id := by
    intro i; by_cases h : i.id = id <;> simp [h]
  unfold statusOf setIntentStatus
  rw [find?_id_map hg]
  cases hfind : w.intents.find? (fun i => i.id == id') with
  | none => simp
  | some i₀ =>
    have hi : i₀.id = id' := by simpa using List.find?_some hfind
    by_cases h : id' = id
    · subst h; simp [Option.map, hi]
    · simp [Option.map, hi, h]


lemma totalEscrow_eq_escrowSum (w : World) (t : String) :
    totalEscrow w t = escrowSum w.intents t := rfl


lemma escrowSum_nil (t : String) : escrowSum [] t = 0 := rfl

lemma escrowSum_cons (i : Intent) (l : List Intent) (t : String) :
    escrowSum (i :: l) t = escrowContrib i t + escrowSum l t := by
  by_cases h1 : i.status = IntentStatus.active
  · by_cases h2 : i.give.token = t <;>
      simp [escrowSum, escrowContrib, h1, h2]
  · simp [escrowSum, escrowContrib, h1]

lemma escrowSum_append (l₁ l₂ : List Intent) (t : String) :
    escrowSum (l₁ ++ l₂) t = escrowSum l₁ t + escrowSum l₂ t := by
  simp [escrowSum, List.filter_append]

lemma escrowContrib_nonneg {i : Intent} (h : 0 ≤ i.give.amount) (t : String) :
    0 ≤ escrowContrib i t := by
  unfold escrowContrib
  split <;> simp [h]

/-- Marking one id filled can only shrink the escrow sum (amounts ≥ 0). -/
lemma escrowSum_fill_le {l : List Intent} (hpos : ∀ i ∈ l, 0 ≤ i.give.amount)
    (id : Nat) (t : String) :
    escrowSum (l.map (fun i =>
      if i.id == id then { i with status := IntentStatus.filled } else i)) t
      ≤ escrowSum l t := by
  induction l with
  | nil => simp [escrowSum]
  | cons i l ih =>
    have hi := hpos i (List.mem_cons_self i l)
    have ih' := ih (fun j hj => hpos j (List.mem_cons_of_mem i hj))
    rw [List.map_cons, escrowSum_cons, escrowSum_cons]
    have hcontrib : escrowContrib
        (if i.id == id then { i with status := IntentStatus.filled } else i) t
        ≤ escrowContrib i t := by
      by_cases h : i.id = id
      · simp only [h, beq_self_eq_true, if_true]
        calc escrowContrib { i with status := IntentStatus.filled } t = 0 := by
              simp [escrowContrib]
          _ ≤ escrowContrib i t := escrowContrib_nonneg hi t
      · simp [h]
    linarith

/-- Marking the id of a stored active intent filled removes at least that
intent's contribution from the escrow sum. -/
lemma escrowSum_fill_drop {l : List Intent} (hpos : ∀ i ∈ l, 0 ≤ i.give.amount)
    {i₀ : Intent} (hmem : i₀ ∈ l) (_hact : i₀.status = IntentStatus.active)
    (t : String) :
    escrowSum (l.map (fun i =>
      if i.id == i₀.id then { i with status := IntentStatus.filled } else i)) t
      ≤ escrowSum l t - escrowContrib i₀ t := by
  induction l with
  | nil => cases hmem
  | cons i l ih =>
    rw [List.map_cons, escrowSum_cons, escrowSum_cons]
    rcases List.mem_cons.mp hmem with heq | hmem'
    · subst heq
      have h0 : escrowContrib
          (if i₀.id == i₀.id then { i₀ with status := IntentStatus.filled } else i₀) t
          = 0 := by simp [escrowContrib]
      have hle := escrowSum_fill_le
        (fun j hj => hpos j (List.mem_cons_of_mem i₀ hj)) i₀.id t
      rw [h0]
      linarith
    · have hi := hpos i (List.mem_cons_self i l)
      have ih' := ih (fun j hj => hpos j (List.mem_cons_of_mem i hj)) hmem'
      have hcontrib : escrowContrib
          (if i.id == i₀.id then { i with status := IntentStatus.filled } else i) t
          ≤ escrowContrib i t := by
        by_cases h : i.id = i₀.id
        · simp only [h, beq_self_eq_true, if_true]
          calc escrowContrib { i with status := IntentStatus.filled } t = 0 := by
                simp [escrowContrib]
            _ ≤ escrowContrib i t := escrowContrib_nonneg hi t
        · simp [h]
      linarith

lemma mem_fill_map_of_ne {l : List Intent} {i : Intent} {id : Nat}
    (hmem : i ∈ l) (hne : i.id ≠ id) :
    i ∈ l.map (fun j =>
      if j.id == id then { j with status := IntentStatus.filled } else j) := by
  have hi : (fun j =>
      if j.id == id then { j with status := IntentStatus.filled } else j) i = i := by
    simp [hne]
  exact hi ▸ List.mem_map_of_mem _ hmem

/-! ### Helper lemmas: matching -/

lemma findMatch_mem {w : World} {n m : Intent} (h : findMatch w n = some m) :
    m ∈ matchCandidates w n := by
  unfold findMatch at h
  by_cases he : (matchCandidates w n).isEmpty
  · simp [he] at h
  · simp only [he, Bool.false_eq_true, if_false] at h
    cases hf : (matchCandidates w n).find? (slippageOK w n) with
    | some c =>
      rw [hf] at h
      cases h
      exact List.mem_of_find?_eq_some hf
    | none =>
      rw [hf] at h
      cases hc : matchCandidates w n with
      | nil => rw [hc] at h; simp at h
      | cons a l =>
        rw [hc] at h
        have ham : a = m := by simpa using h
        cases ham
        exact List.mem_cons_self _ _

lemma matchCandidates_spec {w : World} {n m : Intent}
    (h : m ∈ matchCandidates w n) :
    m ∈ w.intents ∧ m.status = IntentStatus.active ∧ m.id ≠ n.id ∧
      m.agent ≠ n.agent ∧ m.give.token = n.want.token ∧
      m.want.token = n.give.token := by
  have h' := List.mem_filter.mp h
  refine ⟨h'.1, ?_⟩
  have hb := h'.2
  simp only [Bool.and_eq_true, beq_iff_eq, bne_iff_ne, ne_eq] at hb
  tauto

/-! ### Helper lemmas: prices -/

lemma lookupPrice_some_mem : ∀ {ps : Prices} {t : String} {v : ℚ},
    lookupPrice ps t = some v → ∃ p ∈ ps, p.2 = v
  | [], t, v, h => by simp [lookupPrice] at h
  | p :: rest, t, v, h => by
    by_cases hp : p.1 = t
    · simp only [lookupPrice, hp, beq_self_eq_true, if_true,
        Option.some_inj] at h
      exact ⟨p, List.mem_cons_self p rest, h⟩
    · simp only [lookupPrice, beq_iff_eq, hp, if_false] at h
      obtain ⟨q, hq, hv⟩ := lookupPrice_some_mem h
      exact ⟨q, List.mem_cons_of_mem p hq, hv⟩

lemma priceOr1_nonneg {ps : Prices} (h : ∀ p ∈ ps, 0 ≤ p.2) (t : String) :
    0 ≤ priceOr1 ps t := by
  unfold priceOr1
  cases hl : lookupPrice ps t with
  | none => norm_num
  | some v =>
    by_cases hv : v = 0
    · simp only [hv, if_true]
      norm_num
    · simp only [hv, if_false]
      obtain ⟨p, hp, hpv⟩ := lookupPrice_some_mem hl
      exact hpv ▸ h p hp

/-! ### Helper lemmas: store/bump helpers -/

@[simp] lemma storeAgent_agents (w : World) (a : Agent) :
    (storeAgent w a).agents = w.agents ++ [a] := rfl

@[simp] lemma storeAgent_intents (w : World) (a : Agent) :
    (storeAgent w a).intents = w.intents := rfl

@[simp] lemma storeAgent_economy (w : World) (a : Agent) :
    (storeAgent w a).economy = w.economy := rfl

@[simp] lemma storeIntent_agents (w : World) (i : Intent) :
    (storeIntent w i).agents = w.agents := rfl

@[simp] lemma storeIntent_intents (w : World) (i : Intent) :
    (storeIntent w i).intents = w.intents ++ [i] := rfl

@[simp] lemma storeIntent_economy (w : World) (i : Intent) :
    (storeIntent w i).economy = w.economy := rfl

@[simp] lemma storeIntent_nextId (w : World) (i : Intent) :
    (storeIntent w i).nextId = w.nextId + 1 := rfl

@[simp] lemma bumpEconomy_agents (w : World) (dv df : ℚ) :
    (bumpEconomy w dv df).agents = w.agents := rfl

@[simp] lemma bumpEconomy_intents (w : World) (dv df : ℚ) :
    (bumpEconomy w dv df).intents = w.intents := rfl

@[simp] lemma recordSwap_agents (w : World) (s : SwapRecord) :
    (recordSwap w s).agents = w.agents := rfl

@[simp] lemma recordSwap_intents (w : World) (s : SwapRecord) :
    (recordSwap w s).intents = w.intents := rfl

@[simp] lemma recordSwap_economy (w : World) (s : SwapRecord) :
    (recordSwap w s).economy = w.economy := rfl

@[simp] lemma getAgent_addEvent (w : World) (ty : String) (now : Int) (n : String) :
    getAgent (addEvent w ty now) n = getAgent w n := rfl

@[simp] lemma getAgent_setIntentStatus (w : World) (id : Nat) (st : IntentStatus)
    (n : String) : getAgent (setIntentStatus w id st) n = getAgent w n := rfl

@[simp] lemma getAgent_storeIntent (w : World) (i : Intent) (n : String) :
    getAgent (storeIntent w i) n = getAgent w n := rfl

@[simp] lemma getAgent_bumpEconomy (w : World) (dv df : ℚ) (n : String) :
    getAgent (bumpEconomy w dv df) n = getAgent w n := rfl

@[simp] lemma getAgent_recordSwap (w : World) (s : SwapRecord) (n : String) :
    getAgent (recordSwap w s) n = getAgent w n := rfl

/-! ### Helper lemmas: settlement -/

lemma executeSwap_err {w : World} {iA iB : Intent} (now : Int)
    (h : getAgent w iA.agent = none ∨ getAgent w iB.agent = none) :
    executeSwap w iA iB now = (.err "Agent not found during swap", w) := by
  unfold executeSwap
  cases hA : getAgent w iA.agent with
  | none => rfl
  | some aA =>
    cases hB : getAgent w iB.agent with
    | none => rfl
    | some aB =>
      rcases h with h | h
      · rw [hA] at h; cases h
      · rw [hB] at h; cases h

lemma executeSwap_agentA {w : World} {iA iB : Intent} {aA aB : Agent} {now : Int}
    (hA : getAgent w iA.agent = some aA) (hB : getAgent w iB.agent = some aB)
    (hne : iA.agent ≠ iB.agent) :
    getAgent (executeSwap w iA iB now).2 iA.agent =
      some (bumpStats (iA.give.amount * priceOr1 w.economy.tokenPrices iA.give.token)
        now (creditBal iB.give.token
          (iB.give.amount - iB.give.amount * w.economy.feeRate) aA)) := by
  unfold executeSwap
  rw [hA, hB]
  dsimp only
  simp only [getAgent_addEvent, getAgent_recordSwap, getAgent_setIntentStatus,
    getAgent_bumpEconomy, getAgent_update_creditBal, getAgent_update_bumpStats,
    hne, if_true, if_false, eq_self_iff_true, hA, Option.map_some]
  rfl

lemma executeSwap_agentB {w : World} {iA iB : Intent} {aA aB : Agent} {now : Int}
    (hA : getAgent w iA.agent = some aA) (hB : getAgent w iB.agent = some aB)
    (hne : iA.agent ≠ iB.agent) :
    getAgent (executeSwap w iA iB now).2 iB.agent =
      some (bumpStats (iB.give.amount * priceOr1 w.economy.tokenPrices iB.give.token)
        now (creditBal iA.give.token
          (iA.give.amount - iA.give.amount * w.economy.feeRate) aB)) := by
  have hne' : iB.agent ≠ iA.agent := fun hc => hne hc.symm
  unfold executeSwap
  rw [hA, hB]
  dsimp only
  simp only [getAgent_addEvent, getAgent_recordSwap, getAgent_setIntentStatus,
    getAgent_bumpEconomy, getAgent_update_creditBal, getAgent_update_bumpStats,
    hne', if_true, if_false, eq_self_iff_true, hB, Option.map_some]
  rfl

lemma executeSwap_fst {w : World} {iA iB : Intent} {aA aB : Agent} (now : Int)
    (hA : getAgent w iA.agent = some aA) (hB : getAgent w iB.agent = some aB) :
    (executeSwap w iA iB now).1 =
      .settled
        { id := w.nextId
          intentA := iA.id
          intentB := iB.id
          agentA := iA.agent
          agentB := iB.agent
          giveA := iA.give
          giveB := iB.give
          feeA := iA.give.amount * w.economy.feeRate
          feeB := iB.give.amount * w.economy.feeRate
          volumeUSD := iA.give.amount * priceOr1 w.economy.tokenPrices iA.give.token
            + iB.give.amount * priceOr1 w.economy.tokenPrices iB.give.token
          executedAt := now }
        (((getAgent (executeSwap w iA iB now).2 iA.agent).map
          (fun a => a.balance)).getD [])
        (((getAgent (executeSwap w iA iB now).2 iB.agent).map
          (fun a => a.balance)).getD []) := by
  unfold executeSwap
  rw [hA, hB]
  rfl

lemma executeSwap_intents {w : World} {iA iB : Intent} {aA aB : Agent} (now : Int)
    (hA : getAgent w iA.agent = some aA) (hB : getAgent w iB.agent = some aB) :
    (executeSwap w iA iB now).2.intents =
      (setIntentStatus (setIntentStatus w iA.id .filled) iB.id .filled).intents := by
  unfold executeSwap
  rw [hA, hB]
  rfl

lemma executeSwap_economy {w : World} {iA iB : Intent} {aA aB : Agent} (now : Int)
    (hA : getAgent w iA.agent = some aA) (hB : getAgent w iB.agent = some aB) :
    (executeSwap w iA iB now).2.economy =
      { w.economy with
          totalVolume := w.economy.totalVolume +
            (iA.give.amount * priceOr1 w.economy.tokenPrices iA.give.token
              + iB.give.amount * priceOr1 w.economy.tokenPrices iB.give.token),
          totalSwaps := w.economy.totalSwaps + 1,
          totalFees := w.economy.totalFees +
            (iA.give.amount * w.economy.feeRate *
              priceOr1 w.economy.tokenPrices iA.give.token
              + iB.give.amount * w.economy.feeRate *
                priceOr1 w.economy.tokenPrices iB.give.token) } := by
  unfold executeSwap
  rw [hA, hB]
  rfl

/-- Full shape of the world after a successful settlement. -/
lemma executeSwap_snd_eq {w : World} {iA iB : Intent} {aA aB : Agent} (now : Int)
    (hA : getAgent w iA.agent = some aA) (hB : getAgent w iB.agent = some aB) :
    (executeSwap w iA iB now).2 =
      addEvent (recordSwap (setIntentStatus (setIntentStatus (bumpEconomy
        (updateAgent (updateAgent (updateAgent (updateAgent w
          iA.agent (creditBal iB.give.token
            (iB.give.amount - iB.give.amount * w.economy.feeRate)))
          iB.agent (creditBal iA.give.token
            (iA.give.amount - iA.give.amount * w.economy.feeRate)))
          iA.agent (bumpStats
            (iA.give.amount * priceOr1 w.economy.tokenPrices iA.give.token) now))
          iB.agent (bumpStats
            (iB.give.amount * priceOr1 w.economy.tokenPrices iB.give.token) now))
        (iA.give.amount * priceOr1 w.economy.tokenPrices iA.give.token
          + iB.give.amount * priceOr1 w.economy.tokenPrices iB.give.token)
        (iA.give.amount * w.economy.feeRate *
            priceOr1 w.economy.tokenPrices iA.give.token
          + iB.give.amount * w.economy.feeRate *
            priceOr1 w.economy.tokenPrices iB.give.token))
        iA.id .filled) iB.id .filled)
        { id := w.nextId
          intentA := iA.id
          intentB := iB.id
          agentA := iA.agent
          agentB := iB.agent
          giveA := iA.give
          giveB := iB.give
          feeA := iA.give.amount * w.economy.feeRate
          feeB := iB.give.amount * w.economy.feeRate
          volumeUSD := iA.give.amount * priceOr1 w.economy.tokenPrices iA.give.token
            + iB.give.amount * priceOr1 w.economy.tokenPrices iB.give.token
          executedAt := now }) "swap_executed" now := by
  unfold executeSwap
  rw [hA, hB]
  rfl

/-! ### Helper lemmas: the three entry points, branch by branch -/

lemma registerAgent_taken {w : World} {n wa : String} (now : Int)
    (h : (getAgent w n).isSome) :
    registerAgent w n wa now = (.err "Agent already registered", w) := by
  unfold registerAgent
  rw [if_pos h]

lemma registerAgent_fresh {w : World} {n wa : String} (now : Int)
    (h : ¬ (getAgent w n).isSome) :
    registerAgent w n wa now =
      (.ok
        { id := w.nextId, name := n, walletAddress := wa,
          balance := initialBalance, reputation := 100, swapsCompleted := 0,
          swapsFailed := 0, totalVolume := 0, enteredAt := now,
          lastActive := now, status := "active" },
        addEvent (storeAgent w
          { id := w.nextId, name := n, walletAddress := wa,
            balance := initialBalance, reputation := 100, swapsCompleted := 0,
            swapsFailed := 0, totalVolume := 0, enteredAt := now,
            lastActive := now, status := "active" }) "agent_entered" now) := by
  unfold registerAgent
  rw [if_neg h]

lemma depositTokens_unknown {w : World} {n token : String} {amount : ℚ}
    (now : Int) (h : getAgent w n = none) :
    depositTokens w n token amount now = (.err "Agent not found", w) := by
  unfold depositTokens
  rw [h]

lemma depositTokens_unsupported {w : World} {n token : String} {amount : ℚ}
    {ag : Agent} (now : Int) (h : getAgent w n = some ag)
    (hts : w.economy.supportedTokens.contains token = false) :
    depositTokens w n token amount now =
      (.err ("Token " ++ token ++ " not supported"), w) := by
  unfold depositTokens
  rw [h]
  simp only [hts, Bool.not_false, if_true]

lemma depositTokens_invalid {w : World} {n token : String} {amount : ℚ}
    {ag : Agent} (now : Int) (h : getAgent w n = some ag)
    (hts : w.economy.supportedTokens.contains token = true) (h0 : amount ≤ 0) :
    depositTokens w n token amount now = (.err "Amount must be positive", w) := by
  unfold depositTokens
  rw [h]
  simp only [hts, Bool.not_true, Bool.false_eq_true, if_false, if_pos h0]

lemma depositTokens_success {w : World} {n token : String} {amount : ℚ}
    {ag : Agent} (now : Int) (h : getAgent w n = some ag)
    (hts : w.economy.supportedTokens.contains token = true)
    (h0 : ¬ amount ≤ 0) :
    depositTokens w n token amount now =
      (.ok (addBal ag.balance token amount),
        addEvent (updateAgent w n (depositBump token amount now)) "deposit" now) := by
  unfold depositTokens
  rw [h]
  simp only [hts, Bool.not_true, Bool.false_eq_true, if_false, if_neg h0]

lemma postIntent_unknown {w : World} {n : String} {g : Leg} {wt : WantArg}
    {o : PostOptions} (now : Int) (h : getAgent w n = none) :
    postIntent w n g wt o now = (.err "Agent not registered", w) := by
  unfold postIntent
  rw [h]

lemma postIntent_insufficient {w : World} {n : String} {g : Leg} {wt : WantArg}
    {o : PostOptions} {ag : Agent} (now : Int) (h : getAgent w n = some ag)
    (hlt : orZero (lookupBal ag.balance g.token) < g.amount) :
    postIntent w n g wt o now =
      (.err ("Insufficient " ++ g.token ++ " balance"), w) := by
  unfold postIntent
  rw [h]
  dsimp only
  rw [if_pos hlt]

lemma postIntent_accepted {w : World} {n : String} {g : Leg} {wt : WantArg}
    {o : PostOptions} {ag : Agent} (now : Int) (h : getAgent w n = some ag)
    (hge : ¬ orZero (lookupBal ag.balance g.token) < g.amount) :
    postIntent w n g wt o now =
      (match findMatch (escrowWorld w n g (mkIntent w n g wt o now) now)
          (mkIntent w n g wt o now) with
       | some m => executeSwap (escrowWorld w n g (mkIntent w n g wt o now) now)
           (mkIntent w n g wt o now) m now
       | none => (.posted (mkIntent w n g wt o now),
           escrowWorld w n g (mkIntent w n g wt o now) now)) := by
  unfold postIntent
  rw [h]
  dsimp only
  rw [if_neg hge]

/-! ### Helper lemmas: observed quantities under the state helpers -/

@[simp] lemma totalFree_addEvent (w : World) (ty : String) (now : Int)
    (t : String) : totalFree (addEvent w ty now) t = totalFree w t := rfl

@[simp] lemma totalFree_setIntentStatus (w : World) (id : Nat)
    (st : IntentStatus) (t : String) :
    totalFree (setIntentStatus w id st) t = totalFree w t := rfl

@[simp] lemma totalFree_bumpEconomy (w : World) (dv df : ℚ) (t : String) :
    totalFree (bumpEconomy w dv df) t = totalFree w t := rfl

@[simp] lemma totalFree_recordSwap (w : World) (s : SwapRecord) (t : String) :
    totalFree (recordSwap w s) t = totalFree w t := rfl

@[simp] lemma totalFree_storeIntent (w : World) (i : Intent) (t : String) :
    totalFree (storeIntent w i) t = totalFree w t := rfl

@[simp] lemma totalEscrow_addEvent (w : World) (ty : String) (now : Int)
    (t : String) : totalEscrow (addEvent w ty now) t = totalEscrow w t := rfl

@[simp] lemma totalEscrow_updateAgent (w : World) (n : String)
    (f : Agent → Agent) (t : String) :
    totalEscrow (updateAgent w n f) t = totalEscrow w t := rfl

@[simp] lemma totalEscrow_bumpEconomy (w : World) (dv df : ℚ) (t : String) :
    totalEscrow (bumpEconomy w dv df) t = totalEscrow w t := rfl

@[simp] lemma totalEscrow_recordSwap (w : World) (s : SwapRecord) (t : String) :
    totalEscrow (recordSwap w s) t = totalEscrow w t := rfl

@[simp] lemma totalEscrow_storeAgent (w : World) (a : Agent) (t : String) :
    totalEscrow (storeAgent w a) t = totalEscrow w t := rfl

lemma totalEscrow_storeIntent (w : World) (i : Intent) (t : String) :
    totalEscrow (storeIntent w i) t = totalEscrow w t + escrowContrib i t := by
  show escrowSum (w.intents ++ [i]) t = escrowSum w.intents t + escrowContrib i t
  rw [escrowSum_append]
  rw [escrowSum_cons, escrowSum_nil]
  ring

lemma totalFree_storeAgent (w : World) (a : Agent) (t : String) :
    totalFree (storeAgent w a) t =
      totalFree w t + orZero (lookupBal a.balance t) := by
  show ((w.agents ++ [a]).map _).sum = _
  rw [List.map_append, List.sum_append]
  simp [totalFree]

lemma totalEscrow_setFilled_le {w : World}
    (hpos : ∀ i ∈ w.intents, 0 ≤ i.give.amount) (id : Nat) (t : String) :
    totalEscrow (setIntentStatus w id .filled) t ≤ totalEscrow w t :=
  escrowSum_fill_le hpos id t

lemma totalEscrow_setFilled_drop {w : World}
    (hpos : ∀ i ∈ w.intents, 0 ≤ i.give.amount) {i₀ : Intent}
    (hmem : i₀ ∈ w.intents) (hact : i₀.status = IntentStatus.active)
    (t : String) :
    totalEscrow (setIntentStatus w i₀.id .filled) t ≤
      totalEscrow w t - escrowContrib i₀ t :=
  escrowSum_fill_drop hpos hmem hact t

lemma fill_preserves_give (id : Nat) (i : Intent) :
    ((fun i : Intent =>
      if i.id == id then { i with status := IntentStatus.filled } else i) i).give
      = i.give := by
  by_cases h : i.id = id <;> simp [h]

lemma amounts_nonneg_fill {l : List Intent}
    (h : ∀ i ∈ l, 0 ≤ i.give.amount) (id : Nat) :
    ∀ i ∈ l.map (fun i =>
      if i.id == id then { i with status := IntentStatus.filled } else i),
      0 ≤ i.give.amount := by
  intro i hi
  obtain ⟨j, hj, hji⟩ := List.mem_map.mp hi
  rw [← hji, fill_preserves_give]
  exact h j hj

/-! ### Balance reads through the named agent updates -/

lemma balRead_creditBal (tok : String) (amt : ℚ) (a : Agent) (t : String) :
    orZero (lookupBal (creditBal tok amt a).balance t) =
      orZero (lookupBal a.balance t) + if t = tok then amt else 0 :=
  orZero_lookupBal_addBal a.balance tok amt t

lemma balRead_depositBump (tok : String) (amt : ℚ) (now : Int) (a : Agent)
    (t : String) :
    orZero (lookupBal (depositBump tok amt now a).balance t) =
      orZero (lookupBal a.balance t) + if t = tok then amt else 0 :=
  orZero_lookupBal_addBal a.balance tok amt t

@[simp] lemma bumpStats_balance (v : ℚ) (now : Int) (a : Agent) :
    (bumpStats v now a).balance = a.balance := rfl

lemma balRead_escrowDebit_present {a : Agent} {tok : String} {v : ℚ}
    (hv : lookupBal a.balance tok = some v) (amt : ℚ) (now : Int) (t : String) :
    orZero (lookupBal (escrowDebit tok amt now a).balance t) =
      orZero (lookupBal a.balance t) - if t = tok then amt else 0 := by
  show orZero (lookupBal (subBal a.balance tok amt) t) = _
  rw [lookupBal_subBal]
  by_cases h : t = tok
  · subst h
    rw [if_pos rfl, if_pos rfl, hv]
    simp
  · rw [if_neg h, if_neg h]
    ring

lemma balRead_escrowDebit_absent {a : Agent} {tok : String}
    (hv : lookupBal a.balance tok = none) (amt : ℚ) (now : Int) (t : String) :
    orZero (lookupBal (escrowDebit tok amt now a).balance t) =
      orZero (lookupBal a.balance t) := by
  show orZero (lookupBal (subBal a.balance tok amt) t) = _
  rw [lookupBal_subBal]
  by_cases h : t = tok
  · subst h
    rw [if_pos rfl, hv]
    simp
  · rw [if_neg h]

lemma isSome_getAgent_updateAgent {w : World} {n m : String} {f : Agent → Agent}
    (hf : ∀ a, (f a).name = a.name) (h : (getAgent w m).isSome) :
    (getAgent (updateAgent w n f) m).isSome := by
  by_cases hm : m = n
  · subst hm
    rw [getAgent_updateAgent w m f hf, if_pos rfl]
    simpa using h
  · rw [getAgent_updateAgent w n f hf, if_neg hm]
    exact h

lemma totalFree_update_creditBal {w : World} {n : String} (tok : String)
    (amt : ℚ) (t : String)
    (hnd : (w.agents.map (fun a => a.name)).Nodup)
    (hsome : (getAgent w n).isSome) :
    totalFree (updateAgent w n (creditBal tok amt)) t =
      totalFree w t + if t = tok then amt else 0 := by
  obtain ⟨a₀, ha₀⟩ := Option.isSome_iff_exists.mp hsome
  rw [totalFree_updateAgent hnd ha₀, balRead_creditBal]
  ring

lemma totalFree_update_depositBump {w : World} {n : String} (tok : String)
    (amt : ℚ) (now : Int) (t : String)
    (hnd : (w.agents.map (fun a => a.name)).Nodup)
    (hsome : (getAgent w n).isSome) :
    totalFree (updateAgent w n (depositBump tok amt now)) t =
      totalFree w t + if t = tok then amt else 0 := by
  obtain ⟨a₀, ha₀⟩ := Option.isSome_iff_exists.mp hsome
  rw [totalFree_updateAgent hnd ha₀, balRead_depositBump]
  ring

lemma totalFree_update_bumpStats {w : World} {n : String} (v : ℚ) (now : Int)
    (t : String) :
    totalFree (updateAgent w n (bumpStats v now)) t = totalFree w t := by
  have hb : ∀ a, (bumpStats v now a).balance = a.balance := fun _ => rfl
  exact totalFree_updateAgent_of_balance_eq hb t

/-! ### The trace invariant -/


lemma inv_initG : Inv initG := by
  constructor
  · simp [initG, initWorld]
  · simp [initG, initWorld]
  · show (0 : ℚ) ≤ 3 / 1000
    norm_num
  · intro p hp
    simp only [initG, initWorld, List.mem_cons, List.mem_singleton,
      List.not_mem_nil, or_false] at hp
    rcases hp with rfl | rfl | rfl | rfl | rfl <;> norm_num
  · intro t
    show totalFree initWorld t + totalEscrow initWorld t ≤ 0
    simp [totalFree, totalEscrow, escrowSum, initWorld, initG]

@[simp] lemma setIntentStatus_intents (w : World) (id : Nat) (st : IntentStatus) :
    (setIntentStatus w id st).intents =
      w.intents.map (fun i => if i.id == id then { i with status := st } else i) := rfl

@[simp] lemma bumpEconomy_totalVolume (w : World) (dv df : ℚ) :
    (bumpEconomy w dv df).economy.totalVolume = w.economy.totalVolume + dv := rfl

@[simp] lemma bumpEconomy_totalSwaps (w : World) (dv df : ℚ) :
    (bumpEconomy w dv df).economy.totalSwaps = w.economy.totalSwaps + 1 := rfl

@[simp] lemma bumpEconomy_totalFees (w : World) (dv df : ℚ) :
    (bumpEconomy w dv df).economy.totalFees = w.economy.totalFees + df := rfl

lemma names_update_creditBal (w : World) (n tok : String) (amt : ℚ) :
    (updateAgent w n (creditBal tok amt)).agents.map (fun a => a.name) =
      w.agents.map (fun a => a.name) :=
  names_updateAgent w n (creditBal tok amt) (fun _ => rfl)

lemma names_update_bumpStats (w : World) (n : String) (v : ℚ) (now : Int) :
    (updateAgent w n (bumpStats v now)).agents.map (fun a => a.name) =
      w.agents.map (fun a => a.name) :=
  names_updateAgent w n (bumpStats v now) (fun _ => rfl)

lemma names_update_depositBump (w : World) (n tok : String) (amt : ℚ) (now : Int) :
    (updateAgent w n (depositBump tok amt now)).agents.map (fun a => a.name) =
      w.agents.map (fun a => a.name) :=
  names_updateAgent w n (depositBump tok amt now) (fun _ => rfl)

lemma names_update_escrowDebit (w : World) (n tok : String) (amt : ℚ) (now : Int) :
    (updateAgent w n (escrowDebit tok amt now)).agents.map (fun a => a.name) =
      w.agents.map (fun a => a.name) :=
  names_updateAgent w n (escrowDebit tok amt now) (fun _ => rfl)

/-- Marking two distinct stored active intents filled removes both of their
contributions from the escrow sum. -/
lemma totalEscrow_double_fill {X : World} {iA iB : Intent}
    (hpos : ∀ i ∈ X.intents, 0 ≤ i.give.amount)
    (hiA : iA ∈ X.intents) (hactA : iA.status = IntentStatus.active)
    (hiB : iB ∈ X.intents) (hactB : iB.status = IntentStatus.active)
    (hne : iB.id ≠ iA.id) (t : String) :
    totalEscrow (setIntentStatus (setIntentStatus X iA.id .filled) iB.id .filled) t
      ≤ totalEscrow X t - escrowContrib iA t - escrowContrib iB t := by
  have hE2 := escrowSum_fill_drop (amounts_nonneg_fill hpos iA.id)
    (mem_fill_map_of_ne hiB hne) hactB t
  have hE1 := escrowSum_fill_drop hpos hiA hactA t
  show escrowSum ((X.intents.map (fun i =>
      if i.id == iA.id then { i with status := IntentStatus.filled } else i)).map
      (fun i =>
      if i.id == iB.id then { i with status := IntentStatus.filled } else i)) t ≤ _
  refine le_trans hE2 ?_
  show _ ≤ escrowSum X.intents t - escrowContrib iA t - escrowContrib iB t
  linarith

/-- All invariant-relevant facts about a settlement step: names stay unique,
stored amounts stay non-negative, the fee rate and price table are
untouched, per symbol free-plus-escrow does not grow, and the three economy
counters do not decrease. -/
lemma executeSwap_step {w : World} {iA iB : Intent} (now : Int)
    (hnd : (w.agents.map (fun a => a.name)).Nodup)
    (hpos : ∀ i ∈ w.intents, 0 ≤ i.give.amount)
    (hfee : 0 ≤ w.economy.feeRate)
    (hpr : ∀ p ∈ w.economy.tokenPrices, 0 ≤ p.2)
    (hiA : iA ∈ w.intents) (hactA : iA.status = IntentStatus.active)
    (hiB : iB ∈ w.intents) (hactB : iB.status = IntentStatus.active)
    (hne : iB.id ≠ iA.id) :
    (((executeSwap w iA iB now).2.agents.map (fun a => a.name)).Nodup) ∧
    (∀ i ∈ (executeSwap w iA iB now).2.intents, 0 ≤ i.give.amount) ∧
    ((executeSwap w iA iB now).2.economy.feeRate = w.economy.feeRate) ∧
    ((executeSwap w iA iB now).2.economy.tokenPrices = w.economy.tokenPrices) ∧
    (∀ t, totalFree (executeSwap w iA iB now).2 t
        + totalEscrow (executeSwap w iA iB now).2 t
      ≤ totalFree w t + totalEscrow w t) ∧
    (w.economy.totalVolume ≤ (executeSwap w iA iB now).2.economy.totalVolume) ∧
    (w.economy.totalSwaps ≤ (executeSwap w iA iB now).2.economy.totalSwaps) ∧
    (w.economy.totalFees ≤ (executeSwap w iA iB now).2.economy.totalFees) := by
  cases hA : getAgent w iA.agent with
  | none =>
    rw [executeSwap_err now (Or.inl hA)]
    exact ⟨hnd, hpos, rfl, rfl, fun t => le_refl _, le_refl _, le_refl _, le_refl _⟩
  | some aA =>
    cases hB : getAgent w iB.agent with
    | none =>
      rw [executeSwap_err now (Or.inr hB)]
      exact ⟨hnd, hpos, rfl, rfl, fun t => le_refl _, le_refl _, le_refl _, le_refl _⟩
    | some aB =>
      rw [executeSwap_snd_eq now hA hB]
      have hsomeA : (getAgent w iA.agent).isSome := by rw [hA]; rfl
      have hsomeB : (getAgent w iB.agent).isSome := by rw [hB]; rfl
      have hnd1 : ((updateAgent w iA.agent (creditBal iB.give.token
          (iB.give.amount - iB.give.amount * w.economy.feeRate))).agents.map
          (fun a => a.name)).Nodup := by
        rw [names_update_creditBal]; exact hnd
      have hsome1 : (getAgent (updateAgent w iA.agent (creditBal iB.give.token
          (iB.give.amount - iB.give.amount * w.economy.feeRate))) iB.agent).isSome :=
        isSome_getAgent_updateAgent (fun _ => rfl) hsomeB
      have hfA : 0 ≤ iA.give.amount * w.economy.feeRate :=
        mul_nonneg (hpos iA hiA) hfee
      have hfB : 0 ≤ iB.give.amount * w.economy.feeRate :=
        mul_nonneg (hpos iB hiB) hfee
      have hvA : 0 ≤ iA.give.amount * priceOr1 w.economy.tokenPrices iA.give.token :=
        mul_nonneg (hpos iA hiA) (priceOr1_nonneg hpr _)
      have hvB : 0 ≤ iB.give.amount * priceOr1 w.economy.tokenPrices iB.give.token :=
        mul_nonneg (hpos iB hiB) (priceOr1_nonneg hpr _)
      refine ⟨?_, ?_, rfl, rfl, ?_, ?_, ?_, ?_⟩
      · simp only [addEvent_agents, recordSwap_agents, setIntentStatus_agents,
          bumpEconomy_agents]
        rw [names_update_bumpStats, names_update_bumpStats,
          names_update_creditBal, names_update_creditBal]
        exact hnd
      · simp only [addEvent_intents, recordSwap_intents, setIntentStatus_intents,
          bumpEconomy_intents, updateAgent_intents]
        exact amounts_nonneg_fill (amounts_nonneg_fill hpos iA.id) iB.id
      · intro t
        simp only [totalFree_addEvent, totalFree_recordSwap,
          totalFree_setIntentStatus, totalFree_bumpEconomy,
          totalEscrow_addEvent, totalEscrow_recordSwap]
        rw [totalFree_update_bumpStats, totalFree_update_bumpStats,
          totalFree_update_creditBal iA.give.token
            (iA.give.amount - iA.give.amount * w.economy.feeRate) t hnd1 hsome1,
          totalFree_update_creditBal iB.give.token
            (iB.give.amount - iB.give.amount * w.economy.feeRate) t hnd hsomeA]
        have hcA : escrowContrib iA t =
            if t = iA.give.token then iA.give.amount else 0 := by
          unfold escrowContrib
          by_cases h : t = iA.give.token
          · rw [if_pos ⟨hactA, h.symm⟩, if_pos h]
          · rw [if_neg (fun hc => h hc.2.symm), if_neg h]
        have hcB : escrowContrib iB t =
            if t = iB.give.token then iB.give.amount else 0 := by
          unfold escrowContrib
          by_cases h : t = iB.give.token
          · rw [if_pos ⟨hactB, h.symm⟩, if_pos h]
          · rw [if_neg (fun hc => h hc.2.symm), if_neg h]
        have enA : 0 ≤ (if t = iA.give.token then
            iA.give.amount * w.economy.feeRate else 0) := by
          split
          · exact hfA
          · exact le_refl 0
        have enB : 0 ≤ (if t = iB.give.token then
            iB.give.amount * w.economy.feeRate else 0) := by
          split
          · exact hfB
          · exact le_refl 0
        have esplitA : (if t = iA.give.token then
              iA.give.amount - iA.give.amount * w.economy.feeRate else 0) =
            (if t = iA.give.token then iA.give.amount else 0) -
            (if t = iA.give.token then iA.give.amount * w.economy.feeRate else 0) := by
          split <;> ring
        have esplitB : (if t = iB.give.token then
              iB.give.amount - iB.give.amount * w.economy.feeRate else 0) =
            (if t = iB.give.token then iB.give.amount else 0) -
            (if t = iB.give.token then iB.give.amount * w.economy.feeRate else 0) := by
          split <;> ring
        have key : totalFree w t
            + (if t = iB.give.token then
                iB.give.amount - iB.give.amount * w.economy.feeRate else 0)
            + (if t = iA.give.token then
                iA.give.amount - iA.give.amount * w.economy.feeRate else 0)
            + (totalEscrow w t - escrowContrib iA t - escrowContrib iB t)
            ≤ totalFree w t + totalEscrow w t := by
          rw [esplitA, esplitB, hcA, hcB]
          linarith
        exact le_trans (add_le_add_left
          (totalEscrow_double_fill hpos hiA hactA hiB hactB hne t) _) key
      · simp only [addEvent_economy, recordSwap_economy, setIntentStatus_economy,
          bumpEconomy_totalVolume, updateAgent_economy]
        linarith
      · simp only [addEvent_economy, recordSwap_economy, setIntentStatus_economy,
          bumpEconomy_totalSwaps, updateAgent_economy]
        exact Nat.le_succ _
      · simp only [addEvent_economy, recordSwap_economy, setIntentStatus_economy,
          bumpEconomy_totalFees, updateAgent_economy]
        have h1 : 0 ≤ iA.give.amount * w.economy.feeRate *
            priceOr1 w.economy.tokenPrices iA.give.token :=
          mul_nonneg hfA (priceOr1_nonneg hpr _)
        have h2 : 0 ≤ iB.give.amount * w.economy.feeRate *
            priceOr1 w.economy.tokenPrices iB.give.token :=
          mul_nonneg hfB (priceOr1_nonneg hpr _)
        linarith

/-! ### Step preservation of the invariant -/

lemma registerAgent_snd_economy (w : World) (n wa : String) (now : Int) :
    (registerAgent w n wa now).2.economy = w.economy := by
  by_cases h : (getAgent w n).isSome
  · rw [registerAgent_taken now h]
  · rw [registerAgent_fresh now h]
    rfl

lemma initialBalance_all_zero : ∀ p ∈ initialBalance, p.2 = 0 := by
  intro p hp
  simp only [initialBalance, List.mem_cons, List.mem_singleton,
    List.not_mem_nil, or_false] at hp
  rcases hp with rfl | rfl | rfl | rfl | rfl <;> rfl

lemma inv_step_register (gw : GWorld) (hInv : Inv gw) (n wa : String)
    (now : Int) :
    Inv { gw with world := (registerAgent gw.world n wa now).2 } := by
  by_cases h : (getAgent gw.world n).isSome
  · rw [registerAgent_taken now h]
    exact hInv
  · rw [registerAgent_fresh now h]
    have hnone : getAgent gw.world n = none := Option.not_isSome_iff_eq_none.mp h
    have hnotin : ∀ a ∈ gw.world.agents, ¬ a.name = n := by
      intro a ha
      have := List.find?_eq_none.mp hnone a ha
      simpa using this
    constructor
    · simp only [addEvent_agents, storeAgent_agents, List.map_append,
        List.map_cons, List.map_nil]
      rw [List.nodup_append]
      refine ⟨hInv.namesNodup, List.nodup_singleton _, ?_⟩
      intro x hx hx'
      obtain ⟨a, ha, rfl⟩ := List.mem_map.mp hx
      have hx'' : a.name = n := by simpa using hx'
      exact hnotin a ha hx''
    · simpa only [addEvent_intents, storeAgent_intents] using hInv.amountsNonneg
    · simpa only [addEvent_economy, storeAgent_economy] using hInv.feeRateNonneg
    · simpa only [addEvent_economy, storeAgent_economy] using hInv.pricesNonneg
    · intro t
      have hz : orZero (lookupBal initialBalance t) = 0 :=
        orZero_of_all_zero initialBalance_all_zero t
      simp only [totalFree_addEvent, totalEscrow_addEvent, totalEscrow_storeAgent]
      rw [totalFree_storeAgent]
      dsimp only
      rw [hz]
      simpa using hInv.conserve t

lemma depositTokens_snd_economy (w : World) (n tok : String) (amt : ℚ)
    (now : Int) : (depositTokens w n tok amt now).2.economy = w.economy := by
  cases hag : getAgent w n with
  | none => rw [depositTokens_unknown now hag]
  | some ag =>
    by_cases hts : (w.economy.supportedTokens.contains tok) = true
    · by_cases h0 : amt ≤ 0
      · rw [depositTokens_invalid now hag hts h0]
      · rw [depositTokens_success now hag hts h0]
        rfl
    · rw [depositTokens_unsupported now hag (by simpa using hts)]

lemma inv_step_deposit (gw : GWorld) (hInv : Inv gw) (n tok : String) (amt : ℚ)
    (now : Int) : Inv (stepG gw (Op.deposit n tok amt now)) := by
  dsimp only [stepG]
  cases hag : getAgent gw.world n with
  | none =>
    rw [depositTokens_unknown now hag]
    exact hInv
  | some ag =>
    by_cases hts : (gw.world.economy.supportedTokens.contains tok) = true
    · by_cases h0 : amt ≤ 0
      · rw [depositTokens_invalid now hag hts h0]
        exact hInv
      · rw [depositTokens_success now hag hts h0]
        constructor
        · simp only [addEvent_agents]
          show ((updateAgent gw.world n (depositBump tok amt now)).agents.map
            (fun a => a.name)).Nodup
          rw [names_update_depositBump]
          exact hInv.namesNodup
        · simpa only [addEvent_intents, updateAgent_intents] using
            hInv.amountsNonneg
        · simpa only [addEvent_economy, updateAgent_economy] using
            hInv.feeRateNonneg
        · simpa only [addEvent_economy, updateAgent_economy] using
            hInv.pricesNonneg
        · intro t
          have hsome : (getAgent gw.world n).isSome := by rw [hag]; rfl
          simp only [totalFree_addEvent, totalEscrow_addEvent,
            totalEscrow_updateAgent]
          rw [totalFree_update_depositBump tok amt now t hInv.namesNodup hsome]
          have hc := hInv.conserve t
          by_cases ht : t = tok
          · rw [if_pos ht, if_pos ht]
            linarith
          · rw [if_neg ht, if_neg ht]
            linarith
    · rw [depositTokens_unsupported now hag (by simpa using hts)]
      exact hInv

@[simp] lemma escrowWorld_intents (w : World) (n : String) (g : Leg)
    (i : Intent) (now : Int) :
    (escrowWorld w n g i now).intents = w.intents ++ [i] := rfl

@[simp] lemma escrowWorld_economy (w : World) (n : String) (g : Leg)
    (i : Intent) (now : Int) :
    (escrowWorld w n g i now).economy = w.economy := rfl

@[simp] lemma escrowWorld_nextId (w : World) (n : String) (g : Leg)
    (i : Intent) (now : Int) :
    (escrowWorld w n g i now).nextId = w.nextId + 1 := rfl

lemma names_escrowWorld (w : World) (n : String) (g : Leg) (i : Intent)
    (now : Int) :
    (escrowWorld w n g i now).agents.map (fun a => a.name) =
      w.agents.map (fun a => a.name) :=
  names_update_escrowDebit w n g.token g.amount now

lemma getAgent_escrowWorld (w : World) (n : String) (g : Leg) (i : Intent)
    (now : Int) (m : String) :
    getAgent (escrowWorld w n g i now) m =
      if m = n then (getAgent w m).map (escrowDebit g.token g.amount now)
      else getAgent w m :=
  getAgent_update_escrowDebit w n g.token g.amount now m

lemma totalFree_escrowWorld (w : World) (n : String) (g : Leg) (i : Intent)
    (now : Int) (t : String) :
    totalFree (escrowWorld w n g i now) t =
      totalFree (updateAgent w n (escrowDebit g.token g.amount now)) t := rfl

lemma totalEscrow_escrowWorld (w : World) (n : String) (g : Leg) (i : Intent)
    (now : Int) (t : String) :
    totalEscrow (escrowWorld w n g i now) t =
      totalEscrow w t + escrowContrib i t := by
  show totalEscrow (addEvent (storeIntent
    (updateAgent w n (escrowDebit g.token g.amount now)) i) "intent_posted" now) t = _
  rw [totalEscrow_addEvent, totalEscrow_storeIntent, totalEscrow_updateAgent]

lemma inv_escrowWorld {gw : GWorld} (hInv : Inv gw) {n : String} {g : Leg}
    {ag : Agent} (hag : getAgent gw.world n = some ag)
    (hlt : ¬ orZero (lookupBal ag.balance g.token) < g.amount)
    (hpos : 0 ≤ g.amount) (wt : WantArg) (o : PostOptions) (now : Int) :
    Inv { gw with
      world := escrowWorld gw.world n g (mkIntent gw.world n g wt o now) now } := by
  constructor
  · show ((escrowWorld _ _ _ _ _).agents.map (fun a => a.name)).Nodup
    rw [names_escrowWorld]
    exact hInv.namesNodup
  · intro i hi
    simp only [escrowWorld_intents, List.mem_append, List.mem_singleton] at hi
    rcases hi with hi | rfl
    · exact hInv.amountsNonneg i hi
    · exact hpos
  · exact hInv.feeRateNonneg
  · exact hInv.pricesNonneg
  · intro t
    rw [totalFree_escrowWorld, totalEscrow_escrowWorld]
    have hc := hInv.conserve t
    have hcon : escrowContrib (mkIntent gw.world n g wt o now) t =
        if g.token = t then g.amount else 0 := by
      unfold escrowContrib
      by_cases h : g.token = t
      · rw [if_pos ⟨rfl, h⟩, if_pos h]
        rfl
      · rw [if_neg (fun hx => h hx.2), if_neg h]
    cases hv : lookupBal ag.balance g.token with
    | some v =>
      have hfree : totalFree (updateAgent gw.world n
          (escrowDebit g.token g.amount now)) t =
          totalFree gw.world t - (if t = g.token then g.amount else 0) := by
        rw [totalFree_updateAgent hInv.namesNodup hag,
          balRead_escrowDebit_present hv]
        ring
      rw [hfree, hcon]
      by_cases ht : t = g.token
      · rw [if_pos ht, if_pos ht.symm]
        linarith
      · rw [if_neg ht, if_neg (fun hx => ht hx.symm)]
        linarith
    | none =>
      have hz : orZero (lookupBal ag.balance g.token) = 0 := by rw [hv]; rfl
      have hamt : g.amount = 0 := by
        rw [hz] at hlt
        exact le_antisymm (not_lt.mp hlt) hpos
      have hfree : totalFree (updateAgent gw.world n
          (escrowDebit g.token g.amount now)) t = totalFree gw.world t := by
        rw [totalFree_updateAgent hInv.namesNodup hag,
          balRead_escrowDebit_absent hv]
        ring
      rw [hfree, hcon, hamt, ite_self]
      linarith

lemma inv_step_post (gw : GWorld) (hInv : Inv gw) (n : String) (g : Leg)
    (wt : WantArg) (o : PostOptions) (now : Int) (hpos : 0 ≤ g.amount) :
    Inv { gw with world := (postIntent gw.world n g wt o now).2 } ∧
    gw.world.economy.totalVolume ≤
      (postIntent gw.world n g wt o now).2.economy.totalVolume ∧
    gw.world.economy.totalSwaps ≤
      (postIntent gw.world n g wt o now).2.economy.totalSwaps ∧
    gw.world.economy.totalFees ≤
      (postIntent gw.world n g wt o now).2.economy.totalFees := by
  cases hag : getAgent gw.world n with
  | none =>
    rw [postIntent_unknown now hag]
    exact ⟨hInv, le_refl _, le_refl _, le_refl _⟩
  | some ag =>
    by_cases hlt : orZero (lookupBal ag.balance g.token) < g.amount
    · rw [postIntent_insufficient now hag hlt]
      exact ⟨hInv, le_refl _, le_refl _, le_refl _⟩
    · rw [postIntent_accepted now hag hlt]
      have hInv2 := inv_escrowWorld hInv hag hlt hpos wt o now
      cases hm : findMatch
          (escrowWorld gw.world n g (mkIntent gw.world n g wt o now) now)
          (mkIntent gw.world n g wt o now) with
      | none => exact ⟨hInv2, le_refl _, le_refl _, le_refl _⟩
      | some m =>
        have hmem := findMatch_mem hm
        have hspec := matchCandidates_spec hmem
        have hiA : mkIntent gw.world n g wt o now ∈
            (escrowWorld gw.world n g (mkIntent gw.world n g wt o now) now).intents := by
          rw [escrowWorld_intents]
          exact List.mem_append.mpr (Or.inr (List.mem_singleton.mpr rfl))
        obtain ⟨h1, h2, h3, h4, h5, h6, h7, h8⟩ := executeSwap_step now
          hInv2.namesNodup hInv2.amountsNonneg hInv2.feeRateNonneg
          hInv2.pricesNonneg hiA rfl hspec.1 hspec.2.1 hspec.2.2.1
        refine ⟨⟨h1, h2, ?_, ?_, ?_⟩, ?_, ?_, ?_⟩
        · rw [h3]
          exact hInv2.feeRateNonneg
        · rw [h4]
          exact hInv2.pricesNonneg
        · intro t
          have := h5 t
          have hc2 := hInv2.conserve t
          show totalFree _ t + totalEscrow _ t ≤ gw.depTot t
          linarith
        · exact h6
        · exact h7
        · exact h8

lemma executeSwap_totalSwaps_mono (w : World) (iA iB : Intent) (now : Int) :
    w.economy.totalSwaps ≤ (executeSwap w iA iB now).2.economy.totalSwaps := by
  cases hA : getAgent w iA.agent with
  | none =>
    rw [executeSwap_err now (Or.inl hA)]
  | some aA =>
    cases hB : getAgent w iB.agent with
    | none =>
      rw [executeSwap_err now (Or.inr hB)]
    | some aB =>
      rw [executeSwap_snd_eq now hA hB]
      simp only [addEvent_economy, recordSwap_economy, setIntentStatus_economy,
        bumpEconomy_totalSwaps, updateAgent_economy]
      exact Nat.le_succ _

lemma inv_stepG (gw : GWorld) (hInv : Inv gw) (op : Op)
    (hop : nonNegPost op = true) : Inv (stepG gw op) := by
  cases op with
  | register n wa now => exact inv_step_register gw hInv n wa now
  | deposit n tok amt now => exact inv_step_deposit gw hInv n tok amt now
  | post n g wt o now =>
    have hpos : 0 ≤ g.amount := by simpa [nonNegPost] using hop
    exact (inv_step_post gw hInv n g wt o now hpos).1

lemma counters_stepG (gw : GWorld) (hInv : Inv gw) (op : Op)
    (hop : nonNegPost op = true) :
    gw.world.economy.totalVolume ≤ (stepG gw op).world.economy.totalVolume ∧
    gw.world.economy.totalSwaps ≤ (stepG gw op).world.economy.totalSwaps ∧
    gw.world.economy.totalFees ≤ (stepG gw op).world.economy.totalFees := by
  cases op with
  | register n wa now =>
    dsimp only [stepG]
    rw [registerAgent_snd_economy]
    exact ⟨le_refl _, le_refl _, le_refl _⟩
  | deposit n tok amt now =>
    dsimp only [stepG]
    have hec := depositTokens_snd_economy gw.world n tok amt now
    cases hres : depositTokens gw.world n tok amt now with
    | mk r w' =>
      rw [hres] at hec
      cases r with
      | ok b =>
        dsimp only
        rw [hec]
        exact ⟨le_refl _, le_refl _, le_refl _⟩
      | err e =>
        dsimp only
        rw [hec]
        exact ⟨le_refl _, le_refl _, le_refl _⟩
  | post n g wt o now =>
    have hpos : 0 ≤ g.amount := by simpa [nonNegPost] using hop
    exact (inv_step_post gw hInv n g wt o now hpos).2

lemma swaps_stepG (gw : GWorld) (op : Op) :
    gw.world.economy.totalSwaps ≤ (stepG gw op).world.economy.totalSwaps := by
  cases op with
  | register n wa now =>
    dsimp only [stepG]
    rw [registerAgent_snd_economy]
  | deposit n tok amt now =>
    dsimp only [stepG]
    have hec := depositTokens_snd_economy gw.world n tok amt now
    cases hres : depositTokens gw.world n tok amt now with
    | mk r w' =>
      rw [hres] at hec
      cases r with
      | ok b =>
        dsimp only
        rw [hec]
      | err e =>
        dsimp only
        rw [hec]
  | post n g wt o now =>
    dsimp only [stepG]
    cases hag : getAgent gw.world n with
    | none =>
      rw [postIntent_unknown now hag]
    | some ag =>
      by_cases hlt : orZero (lookupBal ag.balance g.token) < g.amount
      · rw [postIntent_insufficient now hag hlt]
      · rw [postIntent_accepted now hag hlt]
        cases hm : findMatch
            (escrowWorld gw.world n g (mkIntent gw.world n g wt o now) now)
            (mkIntent gw.world n g wt o now) with
        | none => exact le_refl _
        | some m =>
          exact executeSwap_totalSwaps_mono
            (escrowWorld gw.world n g (mkIntent gw.world n g wt o now) now)
            (mkIntent gw.world n g wt o now) m now

lemma runG_cons (gw : GWorld) (op : Op) (ops : List Op) :
    runG gw (op :: ops) = runG (stepG gw op) ops := rfl

lemma runG_append (gw : GWorld) (l₁ l₂ : List Op) :
    runG gw (l₁ ++ l₂) = runG (runG gw l₁) l₂ :=
  List.foldl_append stepG gw l₁ l₂

lemma inv_runG : ∀ (ops : List Op) (gw : GWorld), Inv gw →
    (∀ op ∈ ops, nonNegPost op = true) → Inv (runG gw ops)
  | [], _, hInv, _ => hInv
  | op :: ops, gw, hInv, hall => by
    rw [runG_cons]
    exact inv_runG ops (stepG gw op)
      (inv_stepG gw hInv op (hall op (List.mem_cons_self op ops)))
      (fun o ho => hall o (List.mem_cons_of_mem op ho))

lemma counters_runG : ∀ (ops : List Op) (gw : GWorld), Inv gw →
    (∀ op ∈ ops, nonNegPost op = true) →
    gw.world.economy.totalVolume ≤ (runG gw ops).world.economy.totalVolume ∧
    gw.world.economy.totalSwaps ≤ (runG gw ops).world.economy.totalSwaps ∧
    gw.world.economy.totalFees ≤ (runG gw ops).world.economy.totalFees
  | [], _, _, _ => ⟨le_refl _, le_refl _, le_refl _⟩
  | op :: ops, gw, hInv, hall => by
    rw [runG_cons]
    have hstep := counters_stepG gw hInv op (hall op (List.mem_cons_self op ops))
    have hrest := counters_runG ops (stepG gw op)
      (inv_stepG gw hInv op (hall op (List.mem_cons_self op ops)))
      (fun o ho => hall o (List.mem_cons_of_mem op ho))
    exact ⟨le_trans hstep.1 hrest.1, le_trans hstep.2.1 hrest.2.1,
      le_trans hstep.2.2 hrest.2.2⟩

lemma swaps_runG : ∀ (ops : List Op) (gw : GWorld),
    gw.world.economy.totalSwaps ≤ (runG gw ops).world.economy.totalSwaps
  | [], _ => le_refl _
  | op :: ops, gw => by
    rw [runG_cons]
    exact le_trans (swaps_stepG gw op) (swaps_runG ops (stepG gw op))


/-! ### Claims -/

/-- Claim C1, counterexample: the per-agent escrow-conservation inequality
`freeBalance + escrowed ≤ deposited` is already false after the spec's own
scenario 3 trace (register A and B, deposit 2800 USDC resp. 1 ETH, post the
two reciprocal intents): the settlement credits agent A with ETH although A
never deposited any ETH, so A's free ETH balance plus ETH escrow (0.997)
exceeds A's total ETH deposits (0). -/
theorem c1_counterexample :
    ¬ (freeBal (runG initG sc3Ops).world "A" "ETH"
        + agentEscrow (runG initG sc3Ops).world "A" "ETH"
        ≤ (runG initG sc3Ops).depBy "A" "ETH") :=
  of_decide_eq_true (by with_unfolding_all rfl)

/-- Claim C1 (amended): escrow conservation holds economy-wide rather than
per agent: after any sequence of registerAgent, depositTokens and postIntent
operations in which every posted intent gives a non-negative amount, for
every asset symbol the sum over all agents of free balances plus the sum of
the escrowed give-amounts of all active intents in that symbol never exceeds
the total amount successfully deposited in that symbol (the per-agent form
fails because settlement credits the counterparty's token; the
non-negativity proviso is needed because postIntent accepts amounts ≤ 0). -/
theorem c1_theorem (ops : List Op) (h : ops.all nonNegPost = true)
    (t : String) :
    totalFree (runG initG ops).world t + totalEscrow (runG initG ops).world t
      ≤ (runG initG ops).depTot t := by
  have hall : ∀ op ∈ ops, nonNegPost op = true := List.all_eq_true.mp h
  exact (inv_runG ops initG inv_initG hall).conserve t

/-- Witness for the amended C1 on the concrete scenario-3 trace. -/
theorem c1_witness :
    sc3Ops.all nonNegPost = true ∧
    (totalFree (runG initG sc3Ops).world "USDC"
      + totalEscrow (runG initG sc3Ops).world "USDC"
      ≤ (runG initG sc3Ops).depTot "USDC") :=
  ⟨of_decide_eq_true (by with_unfolding_all rfl),
   c1_theorem sc3Ops (of_decide_eq_true (by with_unfolding_all rfl)) "USDC"⟩

/-- Claim C4, counterexample: `totalVolume` and `totalFees` can decrease.
postIntent performs no positivity check, so an intent giving -10000 USDC is
accepted and settles against a reciprocal 1 ETH intent; the settlement adds
the negative leg's volume and fee to the counters, which therefore drop
below their values at the preceding prefix of the trace. -/
theorem c4_counterexample :
    (runG initG negOps).world.economy.totalVolume <
      (runG initG (negOps.take 4)).world.economy.totalVolume ∧
    (runG initG negOps).world.economy.totalFees <
      (runG initG (negOps.take 4)).world.economy.totalFees :=
  of_decide_eq_true (by with_unfolding_all rfl)

/-- Claim C4 (amended): across any sequence of core operations,
`totalSwaps` never decreases unconditionally, and `totalVolume`,
`totalSwaps` and `totalFees` all never decrease provided every posted
intent gives a non-negative amount (without that proviso a settling
negative-amount intent decreases `totalVolume` and `totalFees`). -/
theorem c4_theorem (l₁ l₂ : List Op) (h : (l₁ ++ l₂).all nonNegPost = true) :
    ((runG initG l₁).world.economy.totalVolume ≤
        (runG initG (l₁ ++ l₂)).world.economy.totalVolume ∧
      (runG initG l₁).world.economy.totalSwaps ≤
        (runG initG (l₁ ++ l₂)).world.economy.totalSwaps ∧
      (runG initG l₁).world.economy.totalFees ≤
        (runG initG (l₁ ++ l₂)).world.economy.totalFees) ∧
    (∀ l₃ l₄ : List Op,
      (runG initG l₃).world.economy.totalSwaps ≤
        (runG initG (l₃ ++ l₄)).world.economy.totalSwaps) := by
  constructor
  · rw [runG_append]
    have hall := List.all_eq_true.mp h
    have h1 : ∀ op ∈ l₁, nonNegPost op = true :=
      fun o ho => hall o (List.mem_append_left _ ho)
    have h2 : ∀ op ∈ l₂, nonNegPost op = true :=
      fun o ho => hall o (List.mem_append_right _ ho)
    exact counters_runG l₂ (runG initG l₁) (inv_runG l₁ initG inv_initG h1) h2
  · intro l₃ l₄
    rw [runG_append]
    exact swaps_runG l₄ (runG initG l₃)

/-- Witness for the amended C4 on the concrete scenario-3 trace, split
before its final operation. -/
theorem c4_witness :
    ((sc3Ops.take 5) ++ (sc3Ops.drop 5)).all nonNegPost = true ∧
    ((runG initG (sc3Ops.take 5)).world.economy.totalVolume ≤
      (runG initG ((sc3Ops.take 5) ++ (sc3Ops.drop 5))).world.economy.totalVolume) :=
  ⟨of_decide_eq_true (by with_unfolding_all rfl),
   ((c4_theorem (sc3Ops.take 5) (sc3Ops.drop 5)
      (of_decide_eq_true (by with_unfolding_all rfl))).1).1⟩

/-- Inversion: a settled postIntent means the agent existed, the balance
check passed, matching found a counterparty, and the settlement produced
the returned result. -/
lemma postIntent_settled_inv {w : World} {n : String} {g : Leg} {wt : WantArg}
    {o : PostOptions} {now : Int} {s : SwapRecord} {bA bB : Balances}
    {w' : World}
    (h : postIntent w n g wt o now = (.settled s bA bB, w')) :
    ∃ ag m, getAgent w n = some ag ∧
      ¬ orZero (lookupBal ag.balance g.token) < g.amount ∧
      findMatch (escrowWorld w n g (mkIntent w n g wt o now) now)
        (mkIntent w n g wt o now) = some m ∧
      executeSwap (escrowWorld w n g (mkIntent w n g wt o now) now)
        (mkIntent w n g wt o now) m now = (.settled s bA bB, w') := by
  cases hag : getAgent w n with
  | none =>
    rw [postIntent_unknown now hag] at h
    simp at h
  | some ag =>
    by_cases hlt : orZero (lookupBal ag.balance g.token) < g.amount
    · rw [postIntent_insufficient now hag hlt] at h
      simp at h
    · rw [postIntent_accepted now hag hlt] at h
      cases hm : findMatch (escrowWorld w n g (mkIntent w n g wt o now) now)
          (mkIntent w n g wt o now) with
      | none =>
        rw [hm] at h
        simp at h
      | some m =>
        rw [hm] at h
        exact ⟨ag, m, rfl, hlt, rfl, h⟩

/-- Inversion: a settled executeSwap means both agent records were found. -/
lemma executeSwap_settled_inv {w : World} {iA iB : Intent} {now : Int}
    {s : SwapRecord} {bA bB : Balances} {w' : World}
    (h : executeSwap w iA iB now = (.settled s bA bB, w')) :
    ∃ aA aB, getAgent w iA.agent = some aA ∧ getAgent w iB.agent = some aB := by
  cases hA : getAgent w iA.agent with
  | none =>
    rw [executeSwap_err now (Or.inl hA)] at h
    simp at h
  | some aA =>
    cases hB : getAgent w iB.agent with
    | none =>
      rw [executeSwap_err now (Or.inr hB)] at h
      simp at h
    | some aB => exact ⟨aA, aB, rfl, rfl⟩

/-- The returned swap record of a settled executeSwap carries the two
intents' ids, agents, give legs, and the fees `amount * feeRate`. -/
lemma executeSwap_settled_fields {w : World} {iA iB : Intent} {now : Int}
    {s : SwapRecord} {bA bB : Balances} {w' : World}
    (h : executeSwap w iA iB now = (.settled s bA bB, w')) :
    s = { id := w.nextId, intentA := iA.id, intentB := iB.id,
          agentA := iA.agent, agentB := iB.agent, giveA := iA.give,
          giveB := iB.give, feeA := iA.give.amount * w.economy.feeRate,
          feeB := iB.give.amount * w.economy.feeRate,
          volumeUSD := iA.give.amount * priceOr1 w.economy.tokenPrices iA.give.token
            + iB.give.amount * priceOr1 w.economy.tokenPrices iB.give.token,
          executedAt := now } := by
  obtain ⟨aA, aB, hA, hB⟩ := executeSwap_settled_inv h
  have hfst := executeSwap_fst now hA hB
  rw [h] at hfst
  exact (PostResult.settled.injEq _ _ _ _ _ _).mp hfst |>.1

/-- Claim C8: fail-fast validation without mutation.  depositTokens returns
a structured failure for an unknown agent (NotFound), an unsupported token
(UnsupportedAsset), or a non-positive amount (InvalidAmount); postIntent
returns a structured failure for an unknown agent or an insufficient free
balance (InsufficientBalance).  In every such case the result is the
`err`/failure shape (total functions, so no exception escapes) and the
returned world is exactly the input world: no balance, intent, counter or
event is mutated. -/
theorem c8_theorem :
    (∀ (w : World) (n tok : String) (amt : ℚ) (now : Int),
      getAgent w n = none →
      depositTokens w n tok amt now = (.err "Agent not found", w)) ∧
    (∀ (w : World) (n tok : String) (amt : ℚ) (now : Int) (ag : Agent),
      getAgent w n = some ag →
      (w.economy.supportedTokens.contains tok) = false →
      depositTokens w n tok amt now =
        (.err ("Token " ++ tok ++ " not supported"), w)) ∧
    (∀ (w : World) (n tok : String) (amt : ℚ) (now : Int) (ag : Agent),
      getAgent w n = some ag →
      (w.economy.supportedTokens.contains tok) = true → amt ≤ 0 →
      depositTokens w n tok amt now = (.err "Amount must be positive", w)) ∧
    (∀ (w : World) (n : String) (g : Leg) (wt : WantArg) (o : PostOptions)
        (now : Int),
      getAgent w n = none →
      postIntent w n g wt o now = (.err "Agent not registered", w)) ∧
    (∀ (w : World) (n : String) (g : Leg) (wt : WantArg) (o : PostOptions)
        (now : Int) (ag : Agent),
      getAgent w n = some ag →
      orZero (lookupBal ag.balance g.token) < g.amount →
      postIntent w n g wt o now =
        (.err ("Insufficient " ++ g.token ++ " balance"), w)) :=
  ⟨fun _ _ _ _ now h => depositTokens_unknown now h,
   fun _ _ _ _ now _ h hts => depositTokens_unsupported now h hts,
   fun _ _ _ _ now _ h hts h0 => depositTokens_invalid now h hts h0,
   fun _ _ _ _ _ now h => postIntent_unknown now h,
   fun _ _ _ _ _ now _ h hlt => postIntent_insufficient now h hlt⟩

/-- Witness for C8: concrete instances of all five failure branches. -/
theorem c8_witness :
    depositTokens initWorld "A" "USDC" 5 0 = (.err "Agent not found", initWorld) ∧
    depositTokens sc3Pre "A" "DOGE" 5 0 =
      (.err ("Token " ++ "DOGE" ++ " not supported"), sc3Pre) ∧
    depositTokens sc3Pre "A" "USDC" (-3) 0 =
      (.err "Amount must be positive", sc3Pre) ∧
    postIntent initWorld "A" ⟨"USDC", 5⟩ ⟨"ETH", none, none⟩ ⟨none⟩ 0 =
      (.err "Agent not registered", initWorld) ∧
    postIntent sc3Pre "B" ⟨"ETH", 2⟩ ⟨"USDC", none, none⟩ ⟨none⟩ 0 =
      (.err ("Insufficient " ++ "ETH" ++ " balance"), sc3Pre) := by
  exact ⟨c8_theorem.1 initWorld "A" "USDC" 5 0 (by with_unfolding_all rfl),
    c8_theorem.2.1 sc3Pre "A" "DOGE" 5 0 sc3AgentA (by with_unfolding_all rfl)
      (by with_unfolding_all rfl),
    c8_theorem.2.2.1 sc3Pre "A" "USDC" (-3) 0 sc3AgentA
      (by with_unfolding_all rfl) (by with_unfolding_all rfl) (by norm_num),
    c8_theorem.2.2.2.1 initWorld "A" ⟨"USDC", 5⟩ ⟨"ETH", none, none⟩ ⟨none⟩ 0
      (by with_unfolding_all rfl),
    c8_theorem.2.2.2.2 sc3Pre "B" ⟨"ETH", 2⟩ ⟨"USDC", none, none⟩ ⟨none⟩ 0
      sc3AgentB (by with_unfolding_all rfl)
      (of_decide_eq_true (by with_unfolding_all rfl))⟩

/-- Claim C10: a zero slippage tolerance is silently widened to the
default.  When `want.maxSlippage` is omitted (undefined) or equal to 0, the
stored intent carries `maxSlippage = 0.01`, and the whole `postIntent` call
is indistinguishable from one that passed 0.01 explicitly — hence also in
all subsequent matching decisions. -/
theorem c10_theorem (w : World) (n : String) (g : Leg) (tok : String)
    (mi : Option ℚ) (o : PostOptions) (now : Int) :
    (mkIntent w n g ⟨tok, mi, none⟩ o now).want.maxSlippage = 1 / 100 ∧
    (mkIntent w n g ⟨tok, mi, some 0⟩ o now).want.maxSlippage = 1 / 100 ∧
    mkIntent w n g ⟨tok, mi, none⟩ o now =
      mkIntent w n g ⟨tok, mi, some (1 / 100)⟩ o now ∧
    mkIntent w n g ⟨tok, mi, some 0⟩ o now =
      mkIntent w n g ⟨tok, mi, some (1 / 100)⟩ o now ∧
    postIntent w n g ⟨tok, mi, none⟩ o now =
      postIntent w n g ⟨tok, mi, some (1 / 100)⟩ o now ∧
    postIntent w n g ⟨tok, mi, some 0⟩ o now =
      postIntent w n g ⟨tok, mi, some (1 / 100)⟩ o now := by
  have h1 : orFalsy (none : Option ℚ) (1 / 100) = 1 / 100 := rfl
  have h2 : orFalsy (some (0 : ℚ)) (1 / 100) = 1 / 100 := by
    simp [orFalsy]
  have h3 : orFalsy (some ((1 : ℚ) / 100)) (1 / 100) = 1 / 100 := by
    norm_num [orFalsy]
  have hmk1 : mkIntent w n g ⟨tok, mi, none⟩ o now =
      mkIntent w n g ⟨tok, mi, some (1 / 100)⟩ o now := by
    unfold mkIntent
    dsimp only
    rw [h1, h3]
  have hmk2 : mkIntent w n g ⟨tok, mi, some 0⟩ o now =
      mkIntent w n g ⟨tok, mi, some (1 / 100)⟩ o now := by
    unfold mkIntent
    dsimp only
    rw [h2, h3]
  refine ⟨rfl, ?_, hmk1, hmk2, ?_, ?_⟩
  · show orFalsy (some (0 : ℚ)) (1 / 100) = 1 / 100
    exact h2
  · unfold postIntent
    rw [hmk1]
  · unfold postIntent
    rw [hmk2]

/-- Claim C6: no self-match.  Any counterparty returned by findMatch is
owned by a different agent than the probing intent, and consequently the
two sides of every swap settled through postIntent name different agents. -/
theorem c6_theorem :
    (∀ (w : World) (n m : Intent), findMatch w n = some m →
      m.agent ≠ n.agent) ∧
    (∀ (w : World) (n : String) (g : Leg) (wt : WantArg) (o : PostOptions)
        (now : Int) (s : SwapRecord) (bA bB : Balances) (w' : World),
      postIntent w n g wt o now = (.settled s bA bB, w') →
      s.agentA ≠ s.agentB) := by
  constructor
  · intro w n m h
    exact (matchCandidates_spec (findMatch_mem h)).2.2.2.1
  · intro w n g wt o now s bA bB w' h
    obtain ⟨ag, m, _, _, hm, hex⟩ := postIntent_settled_inv h
    have hfields := executeSwap_settled_fields hex
    have hne : m.agent ≠ (mkIntent w n g wt o now).agent :=
      (matchCandidates_spec (findMatch_mem hm)).2.2.2.1
    rw [hfields]
    exact fun hc => hne hc.symm

/-- Witness for C6 on the concrete scenario-3 settlement. -/
theorem c6_witness :
    postIntent sc3Pre "B" ⟨"ETH", 1⟩ ⟨"USDC", none, some (1 / 50)⟩ ⟨none⟩ 0 =
      (.settled sc3Swap sc3BalA sc3BalB, sc3Res.2) ∧
    sc3Swap.agentA ≠ sc3Swap.agentB :=
  ⟨by with_unfolding_all rfl,
   c6_theorem.2 sc3Pre "B" ⟨"ETH", 1⟩ ⟨"USDC", none, some (1 / 50)⟩ ⟨none⟩ 0
     sc3Swap sc3BalA sc3BalB sc3Res.2 (by with_unfolding_all rfl)⟩

/-- Claim C3: the matching rule.  findMatch considers exactly the stored
intents that are active, have a different id and a different owning agent,
and are token-reciprocal to the probe (the `matchCandidates` filter); it
returns the first candidate in iteration order accepted by the slippage
test `|offerRate - marketRate| / marketRate ≤ max(both tolerances)`
(`slippageOK`); if no candidate passes it falls back to the first candidate
regardless of price fit, so it returns `none` exactly when the candidate
set is empty.  In particular (scenario 6) two reciprocal intents with
grossly incompatible prices have an empty `find?` yet still settle. -/
theorem c3_theorem :
    (∀ (w : World) (n : Intent),
      findMatch w n = none ↔ matchCandidates w n = []) ∧
    (∀ (w : World) (n m : Intent), findMatch w n = some m →
      m ∈ w.intents ∧ m.status = IntentStatus.active ∧ m.id ≠ n.id ∧
      m.agent ≠ n.agent ∧ m.give.token = n.want.token ∧
      m.want.token = n.give.token) ∧
    (∀ (w : World) (n c : Intent),
      (matchCandidates w n).find? (slippageOK w n) = some c →
      findMatch w n = some c) ∧
    (∀ (w : World) (n : Intent),
      (matchCandidates w n).find? (slippageOK w n) = none →
      findMatch w n = (matchCandidates w n).head?) ∧
    ((matchCandidates s6W2 s6Intent).find? (slippageOK s6W2 s6Intent) = none ∧
     matchCandidates s6W2 s6Intent ≠ [] ∧
     isSettled s6Res.1 = true) := by
  refine ⟨?_, ?_, ?_, ?_, ?_, ?_, ?_⟩
  · intro w n
    constructor
    · intro h
      by_cases he : (matchCandidates w n).isEmpty
      · exact List.isEmpty_iff.mp he
      · exfalso
        unfold findMatch at h
        rw [if_neg he] at h
        cases hf : (matchCandidates w n).find? (slippageOK w n) with
        | some c =>
          rw [hf] at h
          simp at h
        | none =>
          rw [hf] at h
          cases hc : matchCandidates w n with
          | nil => exact he (by rw [hc]; rfl)
          | cons a l =>
            rw [hc] at h
            simp at h
    · intro h
      unfold findMatch
      rw [if_pos (by rw [h]; rfl)]
  · intro w n m h
    exact matchCandidates_spec (findMatch_mem h)
  · intro w n c h
    have hne : ¬ (matchCandidates w n).isEmpty = true := by
      intro he
      rw [List.isEmpty_iff.mp he] at h
      simp at h
    unfold findMatch
    rw [if_neg hne, h]
  · intro w n h
    by_cases he : (matchCandidates w n).isEmpty
    · unfold findMatch
      rw [if_pos he, List.isEmpty_iff.mp he]
      rfl
    · unfold findMatch
      rw [if_neg he, h]
  · exact of_decide_eq_true (by with_unfolding_all rfl)
  · exact of_decide_eq_true (by with_unfolding_all rfl)
  · exact of_decide_eq_true (by with_unfolding_all rfl)

/-- Witness for C3 on the scenario-6 data: the slippage search fails yet
findMatch returns the first reciprocal candidate. -/
theorem c3_witness :
    (matchCandidates s6W2 s6Intent).find? (slippageOK s6W2 s6Intent) = none ∧
    findMatch s6W2 s6Intent = (matchCandidates s6W2 s6Intent).head? :=
  ⟨of_decide_eq_true (by with_unfolding_all rfl),
   c3_theorem.2.2.2.1 s6W2 s6Intent (of_decide_eq_true (by with_unfolding_all rfl))⟩

/-- Claim C9 (implicit): postIntent performs no positivity check on the
give amount.  For a registered agent whose free balance in the give token
is a non-negative number, a post with `give.amount ≤ 0` cannot fail the
InsufficientBalance check, never returns a failure (in a world whose stored
intents all belong to registered agents), and stores an active intent; when
`give.amount < 0` the escrow debit *increases* the agent's free balance by
`|give.amount|`.  The only funds-entry validation (InvalidAmount) exists on
deposit, not on intent posting. -/
theorem c9_theorem (w : World) (n : String) (g : Leg) (wt : WantArg)
    (o : PostOptions) (now : Int) (ag : Agent) (v : ℚ)
    (hag : getAgent w n = some ag)
    (hv : lookupBal ag.balance g.token = some v) (hv0 : 0 ≤ v)
    (hneg : g.amount ≤ 0)
    (hwf : ∀ i ∈ w.intents, (getAgent w i.agent).isSome) :
    (¬ orZero (lookupBal ag.balance g.token) < g.amount) ∧
    (∀ e, (postIntent w n g wt o now).1 ≠ PostResult.err e) ∧
    ((mkIntent w n g wt o now).status = IntentStatus.active ∧
      mkIntent w n g wt o now ∈
        (escrowWorld w n g (mkIntent w n g wt o now) now).intents) ∧
    (g.amount < 0 →
      freeBal (escrowWorld w n g (mkIntent w n g wt o now) now) n g.token
        = v + |g.amount|) := by
  have h1 : ¬ orZero (lookupBal ag.balance g.token) < g.amount := by
    rw [hv]
    exact not_lt.mpr (le_trans hneg hv0)
  have hiw2 : getAgent (escrowWorld w n g (mkIntent w n g wt o now) now) n =
      some (escrowDebit g.token g.amount now ag) := by
    rw [getAgent_escrowWorld, if_pos rfl, hag]
    rfl
  refine ⟨h1, ?_, ⟨rfl, ?_⟩, ?_⟩
  · intro e
    rw [postIntent_accepted now hag h1]
    cases hm : findMatch (escrowWorld w n g (mkIntent w n g wt o now) now)
        (mkIntent w n g wt o now) with
    | none => simp
    | some m =>
      have hspec := matchCandidates_spec (findMatch_mem hm)
      have hmw : m ∈ w.intents := by
        have hmem := hspec.1
        rw [escrowWorld_intents] at hmem
        rcases List.mem_append.mp hmem with hmem | hmem
        · exact hmem
        · exfalso
          exact hspec.2.2.1 (by rw [List.mem_singleton.mp hmem])
      have hms : (getAgent (escrowWorld w n g (mkIntent w n g wt o now) now)
          m.agent).isSome := by
        rw [getAgent_escrowWorld]
        by_cases hma : m.agent = n
        · rw [if_pos hma, hma, hag]
          rfl
        · rw [if_neg hma]
          exact hwf m hmw
      obtain ⟨aB, haB⟩ := Option.isSome_iff_exists.mp hms
      rw [executeSwap_fst now hiw2 haB]
      simp
  · rw [escrowWorld_intents]
    exact List.mem_append.mpr (Or.inr (List.mem_singleton.mpr rfl))
  · intro hlt0
    show freeBal _ n g.token = _
    unfold freeBal
    rw [hiw2]
    show orZero (lookupBal (escrowDebit g.token g.amount now ag).balance
      g.token) = v + |g.amount|
    rw [balRead_escrowDebit_present hv g.amount now g.token, hv, if_pos rfl,
      abs_of_neg hlt0]
    show v - g.amount = v + -g.amount
    ring

/-- Witness for C9: after registering agent A (USDC balance 0), posting an
intent giving -5 USDC cannot fail, and the escrow debit raises A's free
USDC balance to 5. -/
theorem c9_witness :
    ((-5 : ℚ) ≤ 0) ∧
    (∀ e, (postIntent c9Pre "A" ⟨"USDC", -5⟩ ⟨"ETH", none, none⟩ ⟨none⟩ 0).1
      ≠ PostResult.err e) ∧
    freeBal (escrowWorld c9Pre "A" ⟨"USDC", -5⟩
        (mkIntent c9Pre "A" ⟨"USDC", -5⟩ ⟨"ETH", none, none⟩ ⟨none⟩ 0) 0)
      "A" "USDC" = 0 + |(-5 : ℚ)| := by
  have h := c9_theorem c9Pre "A" ⟨"USDC", -5⟩ ⟨"ETH", none, none⟩ ⟨none⟩ 0
    c9Agent 0 (by with_unfolding_all rfl) (by with_unfolding_all rfl)
    (le_refl 0) (by norm_num)
    (of_decide_eq_true (by with_unfolding_all rfl))
  exact ⟨by norm_num, h.2.1, h.2.2.2 (by norm_num)⟩

/-- Claim C7: postIntent success postcondition.  For a registered agent
with sufficient free balance, the freshly built intent is active, carries
the fresh id `w.nextId` (which, given that all stored ids are older, is not
already in the book), defaults its expiry to creation time plus one hour,
and is stored in the escrow world, in which exactly `give.amount` is
debited from the agent's free balance in `give.token` while all other
tokens and all other agents are untouched; the call then synchronously
matches, returning the bare posted result exactly when no match exists and
otherwise returning the settlement result of `executeSwap` in the same
call. -/
theorem c7_theorem (w : World) (n : String) (g : Leg) (wt : WantArg)
    (o : PostOptions) (now : Int) (ag : Agent) (v : ℚ)
    (hag : getAgent w n = some ag)
    (hv : lookupBal ag.balance g.token = some v)
    (hge : g.amount ≤ v)
    (hids : ∀ j ∈ w.intents, j.id < w.nextId) :
    (mkIntent w n g wt o now).status = IntentStatus.active ∧
    (mkIntent w n g wt o now).id = w.nextId ∧
    (mkIntent w n g wt o now).id ∉ w.intents.map (fun j => j.id) ∧
    mkIntent w n g wt o now ∈
      (escrowWorld w n g (mkIntent w n g wt o now) now).intents ∧
    (getAgent (escrowWorld w n g (mkIntent w n g wt o now) now) n).map
        (fun a => lookupBal a.balance g.token) = some (some (v - g.amount)) ∧
    (∀ t, t ≠ g.token →
      (getAgent (escrowWorld w n g (mkIntent w n g wt o now) now) n).map
        (fun a => lookupBal a.balance t) = some (lookupBal ag.balance t)) ∧
    (∀ m, m ≠ n →
      getAgent (escrowWorld w n g (mkIntent w n g wt o now) now) m
        = getAgent w m) ∧
    (o.expiresAt = none →
      (mkIntent w n g wt o now).expiresAt = now + 60 * 60 * 1000) ∧
    (findMatch (escrowWorld w n g (mkIntent w n g wt o now) now)
        (mkIntent w n g wt o now) = none →
      postIntent w n g wt o now =
        (.posted (mkIntent w n g wt o now),
          escrowWorld w n g (mkIntent w n g wt o now) now)) ∧
    (∀ m, findMatch (escrowWorld w n g (mkIntent w n g wt o now) now)
        (mkIntent w n g wt o now) = some m →
      postIntent w n g wt o now =
        executeSwap (escrowWorld w n g (mkIntent w n g wt o now) now)
          (mkIntent w n g wt o now) m now) := by
  have hge' : ¬ orZero (lookupBal ag.balance g.token) < g.amount := by
    rw [hv]
    exact not_lt.mpr hge
  have hiw2 : getAgent (escrowWorld w n g (mkIntent w n g wt o now) now) n =
      some (escrowDebit g.token g.amount now ag) := by
    rw [getAgent_escrowWorld, if_pos rfl, hag]
    rfl
  refine ⟨rfl, rfl, ?_, ?_, ?_, ?_, ?_, ?_, ?_, ?_⟩
  · intro hmem
    obtain ⟨j, hj, hjid⟩ := List.mem_map.mp hmem
    exact absurd hjid (Nat.ne_of_lt (hids j hj))
  · rw [escrowWorld_intents]
    exact List.mem_append.mpr (Or.inr (List.mem_singleton.mpr rfl))
  · rw [hiw2]
    show some (lookupBal (subBal ag.balance g.token g.amount) g.token) = _
    rw [lookupBal_subBal, if_pos rfl, hv]
    rfl
  · intro t ht
    rw [hiw2]
    show some (lookupBal (subBal ag.balance g.token g.amount) t) = _
    rw [lookupBal_subBal, if_neg ht]
  · intro m hm
    rw [getAgent_escrowWorld, if_neg hm]
  · intro h
    show (o.expiresAt.getD (now + 60 * 60 * 1000)) = _
    rw [h]
    rfl
  · intro h
    rw [postIntent_accepted now hag hge', h]
  · intro m h
    rw [postIntent_accepted now hag hge', h]

/-- Witness for C7 on scenario 2: A deposited 1000 USDC and posts an intent
giving 600 USDC; the stored escrow world shows a free USDC balance of 400
(1000 - 600). -/
theorem c7_witness :
    lookupBal c7Agent.balance "USDC" = some 1000 ∧
    (getAgent (escrowWorld c7Pre "A" ⟨"USDC", 600⟩
        (mkIntent c7Pre "A" ⟨"USDC", 600⟩ ⟨"ETH", none, none⟩ ⟨none⟩ 0) 0) "A").map
      (fun a => lookupBal a.balance "USDC") = some (some (1000 - 600)) := by
  have h := c7_theorem c7Pre "A" ⟨"USDC", 600⟩ ⟨"ETH", none, none⟩ ⟨none⟩ 0
    c7Agent 1000 (by with_unfolding_all rfl) (by with_unfolding_all rfl)
    (of_decide_eq_true (by with_unfolding_all rfl))
    (of_decide_eq_true (by with_unfolding_all rfl))
  exact ⟨by with_unfolding_all rfl, h.2.2.2.2.1⟩

lemma statusOf_eq_of_intents_eq {w₁ w₂ : World} (h : w₁.intents = w₂.intents)
    (id : Nat) : statusOf w₁ id = statusOf w₂ id := by
  unfold statusOf
  rw [h]

lemma statusOf_isSome_of_mem {w : World} {i : Intent} (h : i ∈ w.intents) :
    (statusOf w i.id).isSome := by
  unfold statusOf
  have hf : (w.intents.find? (fun j => j.id == i.id)).isSome := by
    rw [List.find?_isSome]
    exact ⟨i, h, by simp⟩
  obtain ⟨j, hj⟩ := Option.isSome_iff_exists.mp hf
  rw [hj]
  rfl

lemma statusOf_double_fill {w : World} {a b id : Nat}
    (h : (statusOf w id).isSome) (hid : id = a ∨ id = b) :
    statusOf (setIntentStatus (setIntentStatus w a .filled) b .filled) id
      = some .filled := by
  obtain ⟨st, hst⟩ := Option.isSome_iff_exists.mp h
  rcases hid with rfl | rfl
  · by_cases h2 : id = b
    · subst h2
      simp [statusOf_setIntentStatus, hst]
    · simp [statusOf_setIntentStatus, h2, hst]
  · by_cases h2 : id = a
    · subst h2
      simp [statusOf_setIntentStatus, hst]
    · simp [statusOf_setIntentStatus, h2, hst]

lemma executeSwap_settled_balances {w : World} {iA iB : Intent} {now : Int}
    {s : SwapRecord} {bA bB : Balances} {w' : World}
    (h : executeSwap w iA iB now = (.settled s bA bB, w')) :
    (((getAgent w' iA.agent).map (fun a => a.balance)).getD []) = bA ∧
    (((getAgent w' iB.agent).map (fun a => a.balance)).getD []) = bB := by
  obtain ⟨aA, aB, hA, hB⟩ := executeSwap_settled_inv h
  unfold executeSwap at h
  rw [hA, hB] at h
  dsimp only at h
  injection h with h1 h2
  injection h1 with hs hbA hbB
  rw [← h2]
  exact ⟨hbA, hbB⟩

/-- Claim C2: atomic settlement.  Whenever postIntent returns a settled
(matched) result, both participating intents carry status filled in the
returned world and both returned balance snapshots agree with the stored
agent records of that same world; and if either agent record is missing
when executeSwap is entered, executeSwap returns the AgentMissing failure
with the world completely unchanged (no balance, intent status or counter
mutation). -/
theorem c2_theorem :
    (∀ (w : World) (n : String) (g : Leg) (wt : WantArg) (o : PostOptions)
        (now : Int) (s : SwapRecord) (bA bB : Balances) (w' : World),
      postIntent w n g wt o now = (.settled s bA bB, w') →
      statusOf w' s.intentA = some .filled ∧
      statusOf w' s.intentB = some .filled ∧
      (getAgent w' s.agentA).map (fun a => a.balance) = some bA ∧
      (getAgent w' s.agentB).map (fun a => a.balance) = some bB) ∧
    (∀ (w : World) (iA iB : Intent) (now : Int),
      getAgent w iA.agent = none ∨ getAgent w iB.agent = none →
      executeSwap w iA iB now = (.err "Agent not found during swap", w)) := by
  constructor
  · intro w n g wt o now s bA bB w' hp
    obtain ⟨ag, m, hag, hge, hfm, hexec⟩ := postIntent_settled_inv hp
    obtain ⟨aA, aB, hA, hB⟩ := executeSwap_settled_inv hexec
    have hspec := matchCandidates_spec (findMatch_mem hfm)
    have hne : (mkIntent w n g wt o now).agent ≠ m.agent :=
      fun hc => hspec.2.2.2.1 hc.symm
    have hs := executeSwap_settled_fields hexec
    subst hs
    dsimp only
    have hw' : (executeSwap (escrowWorld w n g (mkIntent w n g wt o now) now)
        (mkIntent w n g wt o now) m now).2 = w' := congrArg Prod.snd hexec
    have hintents := executeSwap_intents now hA hB
    have hiAmem : mkIntent w n g wt o now ∈
        (escrowWorld w n g (mkIntent w n g wt o now) now).intents := by
      rw [escrowWorld_intents]
      exact List.mem_append.mpr (Or.inr (List.mem_singleton.mpr rfl))
    obtain ⟨hbA, hbB⟩ := executeSwap_settled_balances hexec
    have hagA := @executeSwap_agentA _ _ _ _ _ now hA hB hne
    have hagB := @executeSwap_agentB _ _ _ _ _ now hA hB hne
    rw [hw'] at hagA hagB
    rw [hagA] at hbA
    rw [hagB] at hbB
    simp only [Option.map_some', Option.getD_some] at hbA hbB
    refine ⟨?_, ?_, ?_, ?_⟩
    · rw [← hw', statusOf_eq_of_intents_eq hintents]
      exact statusOf_double_fill (statusOf_isSome_of_mem hiAmem) (Or.inl rfl)
    · rw [← hw', statusOf_eq_of_intents_eq hintents]
      exact statusOf_double_fill (statusOf_isSome_of_mem hspec.1) (Or.inr rfl)
    · rw [hagA]
      simp only [Option.map_some']
      exact congrArg some hbA
    · rw [hagB]
      simp only [Option.map_some']
      exact congrArg some hbB
  · intro w iA iB now h
    exact executeSwap_err now h

/-- Witness for C2: scenario 3 settles, and in the resulting world both
intents are filled and the returned balance snapshots match the stored
agents; executeSwap on the empty world fails closed without mutation. -/
theorem c2_witness :
    (statusOf sc3Res.2 sc3Swap.intentA = some .filled ∧
      statusOf sc3Res.2 sc3Swap.intentB = some .filled ∧
      (getAgent sc3Res.2 sc3Swap.agentA).map (fun a => a.balance)
        = some sc3BalA ∧
      (getAgent sc3Res.2 sc3Swap.agentB).map (fun a => a.balance)
        = some sc3BalB) ∧
    executeSwap initWorld
        (mkIntent initWorld "A" ⟨"USDC", 1⟩ ⟨"ETH", none, none⟩ ⟨none⟩ 0)
        (mkIntent initWorld "A" ⟨"USDC", 1⟩ ⟨"ETH", none, none⟩ ⟨none⟩ 0) 0
      = (.err "Agent not found during swap", initWorld) := by
  refine ⟨?_, ?_⟩
  · have h := c2_theorem.1 sc3Pre "B" ⟨"ETH", 1⟩ ⟨"USDC", none, some (1 / 50)⟩
      ⟨none⟩ 0 sc3Swap sc3BalA sc3BalB sc3Res.2 (by with_unfolding_all rfl)
    exact h
  · exact c2_theorem.2 initWorld
      (mkIntent initWorld "A" ⟨"USDC", 1⟩ ⟨"ETH", none, none⟩ ⟨none⟩ 0)
      (mkIntent initWorld "A" ⟨"USDC", 1⟩ ⟨"ETH", none, none⟩ ⟨none⟩ 0) 0
      (Or.inl (by with_unfolding_all rfl))



/-- Claim C5: settlement arithmetic.  executeSwap on intents A and B (with
both agents present and distinct) charges each leg a fee of the leg's give
amount times the global feeRate (recorded in the swap record), credits
agent A in intent B's give token by exactly amountB minus feeB and agent B
in intent A's give token by amountA minus feeA, touches no other balance
entry, and bumps each agent's swapsCompleted by 1, reputation by 5, and
cumulative volume by their own leg's USD value; in scenario 3 the post of
B's reciprocal intent settles with A's ETH balance 1 - fee and B's USDC
balance 2800 - fee where fee = amount times feeRate (3/1000). -/
theorem c5_theorem :
    (∀ (w : World) (iA iB : Intent) (now : Int) (aA aB : Agent),
      getAgent w iA.agent = some aA → getAgent w iB.agent = some aB →
      iA.agent ≠ iB.agent →
      ∃ aA' aB',
        getAgent (executeSwap w iA iB now).2 iA.agent = some aA' ∧
        getAgent (executeSwap w iA iB now).2 iB.agent = some aB' ∧
        orZero (lookupBal aA'.balance iB.give.token) =
          orZero (lookupBal aA.balance iB.give.token) +
            (iB.give.amount - iB.give.amount * w.economy.feeRate) ∧
        orZero (lookupBal aB'.balance iA.give.token) =
          orZero (lookupBal aB.balance iA.give.token) +
            (iA.give.amount - iA.give.amount * w.economy.feeRate) ∧
        (∀ t, t ≠ iB.give.token →
          lookupBal aA'.balance t = lookupBal aA.balance t) ∧
        (∀ t, t ≠ iA.give.token →
          lookupBal aB'.balance t = lookupBal aB.balance t) ∧
        aA'.swapsCompleted = aA.swapsCompleted + 1 ∧
        aB'.swapsCompleted = aB.swapsCompleted + 1 ∧
        aA'.reputation = aA.reputation + 5 ∧
        aB'.reputation = aB.reputation + 5 ∧
        aA'.totalVolume = aA.totalVolume +
          iA.give.amount * priceOr1 w.economy.tokenPrices iA.give.token ∧
        aB'.totalVolume = aB.totalVolume +
          iB.give.amount * priceOr1 w.economy.tokenPrices iB.give.token) ∧
    (∀ (w : World) (iA iB : Intent) (now : Int) (s : SwapRecord)
        (bA bB : Balances) (w' : World),
      executeSwap w iA iB now = (.settled s bA bB, w') →
      s.feeA = iA.give.amount * w.economy.feeRate ∧
      s.feeB = iB.give.amount * w.economy.feeRate) ∧
    (∃ s bA bB, sc3Res.1 = PostResult.settled s bA bB) ∧
    freeBal sc3Res.2 "A" "ETH" = 1 - 1 * (3 / 1000) ∧
    freeBal sc3Res.2 "B" "USDC" = 2800 - 2800 * (3 / 1000) ∧
    sc3Swap.feeA = 1 * (3 / 1000) ∧
    sc3Swap.feeB = 2800 * (3 / 1000) := by
  refine ⟨?_, ?_, ⟨sc3Swap, sc3BalA, sc3BalB, by with_unfolding_all rfl⟩,
    by with_unfolding_all rfl, by with_unfolding_all rfl,
    by with_unfolding_all rfl, by with_unfolding_all rfl⟩
  · intro w iA iB now aA aB hA hB hne
    have hagA := @executeSwap_agentA _ _ _ _ _ now hA hB hne
    have hagB := @executeSwap_agentB _ _ _ _ _ now hA hB hne
    refine ⟨_, _, hagA, hagB, ?_, ?_, ?_, ?_, rfl, rfl, rfl, rfl, rfl, rfl⟩
    · rw [bumpStats_balance, balRead_creditBal, if_pos rfl]
    · rw [bumpStats_balance, balRead_creditBal, if_pos rfl]
    · intro t ht
      rw [bumpStats_balance]
      show lookupBal (addBal aA.balance iB.give.token _) t = _
      rw [lookupBal_addBal, if_neg ht]
    · intro t ht
      rw [bumpStats_balance]
      show lookupBal (addBal aB.balance iA.give.token _) t = _
      rw [lookupBal_addBal, if_neg ht]
  · intro w iA iB now s bA bB w' h
    have hs := executeSwap_settled_fields h
    subst hs
    exact ⟨rfl, rfl⟩

/-- Witness for C5: executeSwap on two concrete reciprocal intents over the
scenario-3 agents produces exactly the credited balances, fee deductions
and stat bumps of the theorem. -/
theorem c5_witness :
    ∃ aA' aB',
      getAgent (executeSwap sc3Pre c5IA c5IB 0).2 c5IA.agent = some aA' ∧
      getAgent (executeSwap sc3Pre c5IA c5IB 0).2 c5IB.agent = some aB' ∧
      orZero (lookupBal aA'.balance c5IB.give.token) =
        orZero (lookupBal sc3AgentA.balance c5IB.give.token) +
          (c5IB.give.amount - c5IB.give.amount * sc3Pre.economy.feeRate) ∧
      orZero (lookupBal aB'.balance c5IA.give.token) =
        orZero (lookupBal sc3AgentB.balance c5IA.give.token) +
          (c5IA.give.amount - c5IA.give.amount * sc3Pre.economy.feeRate) ∧
      (∀ t, t ≠ c5IB.give.token →
        lookupBal aA'.balance t = lookupBal sc3AgentA.balance t) ∧
      (∀ t, t ≠ c5IA.give.token →
        lookupBal aB'.balance t = lookupBal sc3AgentB.balance t) ∧
      aA'.swapsCompleted = sc3AgentA.swapsCompleted + 1 ∧
      aB'.swapsCompleted = sc3AgentB.swapsCompleted + 1 ∧
      aA'.reputation = sc3AgentA.reputation + 5 ∧
      aB'.reputation = sc3AgentB.reputation + 5 ∧
      aA'.totalVolume = sc3AgentA.totalVolume +
        c5IA.give.amount * priceOr1 sc3Pre.economy.tokenPrices c5IA.give.token ∧
      aB'.totalVolume = sc3AgentB.totalVolume +
        c5IB.give.amount * priceOr1 sc3Pre.economy.tokenPrices c5IB.give.token :=
  c5_theorem.1 sc3Pre c5IA c5IB 0 sc3AgentA sc3AgentB
    (by with_unfolding_all rfl) (by with_unfolding_all rfl) (by decide)

end AgentSwaps